import Mathlib

/-!
# WWSJ PAwR responder: advertising payload encoder and event handler

Shallow embedding of `src/app.c`.

* Bytes and machine integers are natural numbers; every store into a
  `uint8_t` object reduces modulo 256, `size_t` arithmetic reduces modulo
  `2 ^ w` where `w` is the width of `size_t`.
* `payload` is a `uint8_t[31]`; it is embedded as a function on indices, and
  every access goes through a bounds check: an access at an index `>= 31` is
  the fault `out_of_bounds`.
* The target is little-endian, so the object representation of a `uint16_t`
  or `uint32_t` copied with `memcpy` or through a `uint8_t*` is low byte first.
* The radio stack, the attribute store and the tick counter are outside the
  source file; they are the fields of `Env`.
-/

namespace WWSJ

/-! ## Faults -/

/-- Ways in which the embedded code stops with no defined result. -/
inductive Fault where
  /-- `app_assert_status` saw a status other than success: the device halts. -/
  | assert_failed
  /-- An access outside the bounds of an array. -/
  | out_of_bounds
  deriving DecidableEq, Repr

/-! ## Commands of the radio stack -/

/-- Values of `sl_bt_past_receiver_mode_t`. -/
inductive past_receiver_mode where
  | mode_ignore
  | mode_synchronize
  deriving DecidableEq, Repr

/-- Values of `sl_bt_sync_reporting_mode_t`. -/
inductive sync_reporting_mode where
  | report_none
  | report_all
  deriving DecidableEq, Repr

/-- Values of `sl_bt_legacy_advertiser_connection_mode_t`. -/
inductive legacy_advertiser_mode where
  | non_connectable
  | connectable
  | scannable
  deriving DecidableEq, Repr

/-- Commands that `app.c` sends to the radio stack, with their arguments in
the order of the C call.  A buffer argument `(len, ptr)` is recorded as `len`
followed by the `len` bytes found at `ptr`. -/
inductive Cmd where
  | past_receiver_set_default_sync_receive_parameters
      (mode : past_receiver_mode) (skip timeout : Nat) (reporting_mode : sync_reporting_mode)
  | advertiser_create_set
  | legacy_advertiser_set_data (advertising_set type data_len : Nat) (data : List Nat)
  | advertiser_set_timing (advertising_set interval_min interval_max duration maxevents : Nat)
  | legacy_advertiser_start (advertising_set : Nat) (connect : legacy_advertiser_mode)
  | connection_close (connection : Nat)
  | pawr_sync_set_response_data
      (sync request_event request_subevent response_subevent response_slot data_len : Nat)
      (data : List Nat)
  | gatt_server_send_user_write_response (connection characteristic att_errorcode : Nat)
  deriving DecidableEq, Repr

/-- Everything `app.c` consumes from outside the file. -/
structure Env where
  /-- Width in bits of `size_t`. -/
  size_bits : Nat
  /-- Handle `gattdb_device_name` of `gatt_db.h`. -/
  gattdb_device_name : Nat
  /-- Handle `gattdb_address` of `gatt_db.h`. -/
  gattdb_address : Nat
  /-- Status (`sl_status_t`, zero is success) returned by each stack command. -/
  status : Cmd → Nat
  /-- Handle that `sl_bt_advertiser_create_set` writes through its argument. -/
  create_set_handle : Nat
  /-- Result of `sl_bt_gatt_server_read_attribute_value attribute offset max`:
  the status and the bytes delivered into the caller's buffer. -/
  read_attribute_value : Nat → Nat → Nat → Nat × List Nat
  /-- Value returned by `sl_sleeptimer_get_tick_count`. -/
  tick_count : Nat
  /-- Byte that the event buffer holds at `value.data[0]` of a write request
  whose value has length 0: the written value has no byte there, and the
  handler reads this one. -/
  empty_value_data0 : Nat

/-- Modelled from the spec: the macro `app_assert_status` of `app_assert.h`
is not part of the source file.  Any status other than success is an
assertion failure that halts the device; success lets the caller go on. -/
def app_assert_status (sc : Nat) : Except Fault Unit :=
  if sc = 0 then .ok () else .error .assert_failed

/-! ## Advertising payload encoder -/

/-- The C `struct legacyAdv_s`: `uint8_t length; uint8_t payload[31];`. -/
structure legacyAdv_s where
  length : Nat
  payload : Nat → Nat

/-- The C `sizeof(adv->payload)`. -/
def PAYLOAD_SIZE : Nat := 31

/-- The statement `adv->payload[adv->length++] = v;`. -/
def push (adv : legacyAdv_s) (v : Nat) : Except Fault legacyAdv_s :=
  if adv.length < PAYLOAD_SIZE then
    .ok { length := (adv.length + 1) % 256,
          payload := fun j => if j = adv.length then v % 256 else adv.payload j }
  else .error .out_of_bounds

/-- The bytes `bs` laid over `p` from offset `off` on. -/
def overlay (p : Nat → Nat) (off : Nat) (bs : List Nat) : Nat → Nat :=
  fun j => if off ≤ j ∧ j < off + bs.length then bs.getD (j - off) 0 else p j

/-- The call `memcpy(&adv->payload[off], src, n)`, where `src` is an array
holding the bytes `src`. -/
def memcpy (adv : legacyAdv_s) (off : Nat) (src : List Nat) (n : Nat) :
    Except Fault legacyAdv_s :=
  if src.length < n then .error .out_of_bounds
  else if off + n ≤ PAYLOAD_SIZE then
    .ok { adv with payload := overlay adv.payload off (src.take n) }
  else .error .out_of_bounds

/-- Object representation of a `uint16_t` on the little-endian target. -/
def bytes_of_u16 (v : Nat) : List Nat := [v % 256, v / 256 % 256]

/-- Object representation of a `uint32_t` on the little-endian target. -/
def bytes_of_u32 (v : Nat) : List Nat :=
  [v % 256, v / 256 % 256, v / 65536 % 256, v / 16777216 % 256]

/-- Value of a byte sequence read low byte first. -/
def le_decode : List Nat → Nat
  | [] => 0
  | b :: bs => b + 256 * le_decode bs

/-- The C `adv_init`. -/
def adv_init (adv : legacyAdv_s) : legacyAdv_s :=
  { adv with length := 0 }

/-- The C `adv_add_flags`. -/
def adv_add_flags (adv : legacyAdv_s) (flags : Nat) : Except Fault legacyAdv_s := do
  let adv ← push adv 2
  let adv ← push adv 1
  push adv flags

/-- The expression `sizeof(adv->payload) - adv->length - 2` of `adv_add_name`,
evaluated in `size_t` of width `w`, where `length` is the value of `adv->length`. -/
def adv_add_name_max_length (w : Nat) (length : Nat) : Nat :=
  (((PAYLOAD_SIZE : Int) - (length : Int) - 2) % (2 : Int) ^ w).toNat

/-- The C `adv_add_name`.  The stack delivers the attribute value into
`&adv->payload[adv->length+2]` and its size into `length`; a read whose
status is not success delivers nothing and fails the assertion. -/
def adv_add_name (env : Env) (adv : legacyAdv_s) : Except Fault legacyAdv_s :=
  let max_length := adv_add_name_max_length env.size_bits adv.length
  let r := env.read_attribute_value env.gattdb_device_name 0 max_length
  do
    app_assert_status r.1
    let length := r.2.length
    let adv ← memcpy adv (adv.length + 2) r.2 length
    let adv ← push adv (2 + length)
    let adv ← push adv 0x09
    pure { adv with length := (adv.length + length) % 256 }

/-- The C `adv_add_manufacturer_data`. -/
def adv_add_manufacturer_data (adv : legacyAdv_s)
    (id address_handle name_handle length : Nat) (data : List Nat) :
    Except Fault legacyAdv_s := do
  let adv ← push adv (length + 5)
  let adv ← push adv 0xff
  let adv ← memcpy adv adv.length (bytes_of_u16 id) 2
  let adv := { adv with length := (adv.length + 2) % 256 }
  let adv ← memcpy adv adv.length (bytes_of_u16 address_handle) 2
  let adv := { adv with length := (adv.length + 2) % 256 }
  let adv ← memcpy adv adv.length (bytes_of_u16 name_handle) 2
  let adv := { adv with length := (adv.length + 2) % 256 }
  let adv ← memcpy adv adv.length data length
  pure { adv with length := (adv.length + length) % 256 }

/-- One call of the encoder on a buffer. -/
inductive Append where
  | flags (flags : Nat)
  | name
  | manufacturer_data (id address_handle name_handle length : Nat) (data : List Nat)

/-- The encoder call denoted by an `Append`. -/
def Append.apply (env : Env) (adv : legacyAdv_s) : Append → Except Fault legacyAdv_s
  | .flags f => adv_add_flags adv f
  | .name => adv_add_name env adv
  | .manufacturer_data id address_handle name_handle length data =>
      adv_add_manufacturer_data adv id address_handle name_handle length data

/-- The calls `ops` applied in order to `adv`. -/
def append_all (env : Env) (adv : legacyAdv_s) : List Append → Except Fault legacyAdv_s
  | [] => .ok adv
  | op :: ops => do
      let adv ← op.apply env adv
      append_all env adv ops

/-- The offsets at which the elements appended by `ops` to `adv` start: the
value of `adv->length` on entry to each call. -/
def element_starts (env : Env) (adv : legacyAdv_s) : List Append → List Nat
  | [] => []
  | op :: ops =>
      match op.apply env adv with
      | .ok adv' => adv.length :: element_starts env adv' ops
      | .error _ => [adv.length]

/-- A scanner's walk over the buffer: from `off`, while `off < length`, visit
`off` and advance by `payload[off] + 1`.  Returns the visited offsets and the
offset at which the walk stops.  Every step advances, so `fuel = length`
steps are enough. -/
def walk (adv : legacyAdv_s) : Nat → Nat → List Nat × Nat
  | 0, off => ([], off)
  | fuel + 1, off =>
      if off < adv.length then
        let r := walk adv fuel (off + adv.payload off + 1)
        (off :: r.1, r.2)
      else ([], off)

/-- The first `length` bytes of the payload, as handed to the stack by
`(adv.length, adv.payload)`. -/
def adv_data (adv : legacyAdv_s) : List Nat :=
  (List.range adv.length).map adv.payload

/-! ## Event handler -/

/-- The file-scope variables of `app.c`. -/
structure App where
  advertising_set_handle : Nat
  conn : Nat
  address : Nat
  legacyMain : legacyAdv_s
  legacyScan : legacyAdv_s

/-- The file-scope variables as initialised at program start. -/
def app_initial : App :=
  { advertising_set_handle := 0xff, conn := 0xff, address := 0,
    legacyMain := { length := 0, payload := fun _ => 0 },
    legacyScan := { length := 0, payload := fun _ => 0 } }

/-- The events `sl_bt_on_event` distinguishes, with the fields it reads. -/
inductive Event where
  | system_boot
  | connection_opened (connection : Nat)
  | connection_closed
  | pawr_sync_transfer_received
  | pawr_sync_subevent_report (sync event_counter subevent : Nat)
  | sync_closed
  | gatt_server_user_write_request (connection characteristic : Nat) (value : List Nat)
  | unhandled
  deriving DecidableEq, Repr

/-- What handling one event does: the stack commands issued, in order, and
the variables afterwards (or the fault that stopped the handler). -/
structure Outcome where
  cmds : List Cmd
  next : Except Fault App

/-- The pair `sc = c; app_assert_status(sc);` followed by `rest`. -/
def command_asserted (env : Env) (c : Cmd) (rest : Outcome) : Outcome :=
  match app_assert_status (env.status c) with
  | .ok _ => { cmds := c :: rest.cmds, next := rest.next }
  | .error f => { cmds := [c], next := .error f }

/-- The C `start_advertising`. -/
def start_advertising (env : Env) (s : App) : Outcome :=
  command_asserted env (.legacy_advertiser_start s.advertising_set_handle .connectable)
    { cmds := [], next := .ok s }

/-- The string literal `"WWSJ PAwR Demo"` of the boot branch. -/
def marker : List Nat :=
  [0x57, 0x57, 0x53, 0x4a, 0x20, 0x50, 0x41, 0x77, 0x52, 0x20, 0x44, 0x65, 0x6d, 0x6f]

/-- The expression `ED.value.data[0]` of the write-request branch: the first
byte of the written value, or, for a value of length 0, the byte the event
buffer holds at that place.  The source checks no length. -/
def value_data0 (env : Env) : List Nat → Nat
  | [] => env.empty_value_data0
  | b :: _ => b

/-- The C `sl_bt_on_event`. -/
def sl_bt_on_event (env : Env) (s : App) : Event → Outcome
  | .system_boot =>
      command_asserted env
        (.past_receiver_set_default_sync_receive_parameters .mode_synchronize 0 1000 .report_all) <|
      command_asserted env .advertiser_create_set <|
      let s := { s with advertising_set_handle := env.create_set_handle }
      let legacyMain := adv_init s.legacyMain
      let legacyScan := adv_init s.legacyScan
      match adv_add_flags legacyMain 6 with
      | .error f => { cmds := [], next := .error f }
      | .ok legacyMain =>
      match adv_add_name env legacyMain with
      | .error f => { cmds := [], next := .error f }
      | .ok legacyMain =>
      match adv_add_manufacturer_data legacyScan 0x2ff env.gattdb_address
              env.gattdb_device_name 14 marker with
      | .error f => { cmds := [], next := .error f }
      | .ok legacyScan =>
      let s := { s with legacyMain := legacyMain, legacyScan := legacyScan }
      command_asserted env
        (.legacy_advertiser_set_data s.advertising_set_handle 0 s.legacyMain.length
          (adv_data s.legacyMain)) <|
      command_asserted env
        (.legacy_advertiser_set_data s.advertising_set_handle 1 s.legacyScan.length
          (adv_data s.legacyScan)) <|
      command_asserted env (.advertiser_set_timing s.advertising_set_handle 160 160 0 0) <|
      start_advertising env s
  | .connection_opened connection =>
      { cmds := [], next := .ok { s with conn := connection } }
  | .connection_closed =>
      { cmds := [], next := .ok s }
  | .pawr_sync_transfer_received =>
      command_asserted env (.connection_close s.conn) { cmds := [], next := .ok s }
  | .pawr_sync_subevent_report sync event_counter subevent =>
      let uptime := env.tick_count % 2 ^ 32
      { cmds := [.pawr_sync_set_response_data sync event_counter subevent subevent
                    s.address 4 (bytes_of_u32 uptime)],
        next := .ok s }
  | .sync_closed =>
      start_advertising env s
  | .gatt_server_user_write_request connection characteristic value =>
      let s := { s with address := value_data0 env value % 256 }
      command_asserted env
        (.gatt_server_send_user_write_response connection characteristic 0)
        { cmds := [], next := .ok s }
  | .unhandled =>
      { cmds := [], next := .ok s }

/-! ## The encoded elements -/

/-- Bytes of the element written by `adv_add_flags`. -/
def flags_element (flags : Nat) : List Nat := [2, 1, flags % 256]

/-- Bytes of the element written by `adv_add_name` for the delivered `name`. -/
def name_element (name : List Nat) : List Nat :=
  (2 + name.length) % 256 :: 0x09 :: name

/-- Bytes of the element written by `adv_add_manufacturer_data`. -/
def manufacturer_element (id address_handle name_handle length : Nat) (data : List Nat) :
    List Nat :=
  (length + 5) % 256 :: 0xff ::
    (bytes_of_u16 id ++ bytes_of_u16 address_handle ++ bytes_of_u16 name_handle ++
      data.take length)

/-- The element that an encoder call appends to a buffer whose `length` is
`n`, or the fault that stops the call before anything is appended. -/
def Append.element (env : Env) (n : Nat) : Append → Except Fault (List Nat)
  | .flags f => .ok (flags_element f)
  | .name =>
      let r := env.read_attribute_value env.gattdb_device_name 0
        (adv_add_name_max_length env.size_bits n)
      if r.1 = 0 then .ok (name_element r.2) else .error .assert_failed
  | .manufacturer_data id address_handle name_handle length data =>
      if length ≤ data.length then
        .ok (manufacturer_element id address_handle name_handle length data)
      else .error .out_of_bounds

/-- Appending the bytes `bs` to a buffer of capacity 31. -/
def append_bytes (adv : legacyAdv_s) (bs : List Nat) : Except Fault legacyAdv_s :=
  if adv.length + bs.length ≤ 31 then
    .ok { length := adv.length + bs.length, payload := overlay adv.payload adv.length bs }
  else .error .out_of_bounds

/-- An environment in which every command succeeds and the device name is `name`. -/
def sample_env (name : List Nat) : Env :=
  { size_bits := 32, gattdb_device_name := 11, gattdb_address := 27, status := fun _ => 0,
    create_set_handle := 0, read_attribute_value := fun _ _ _ => (0, name),
    tick_count := 0x01020304, empty_value_data0 := 0 }

/-- A buffer as zero-initialised at program start. -/
def zero_adv : legacyAdv_s := { length := 0, payload := fun _ => 0 }

/-- The buffer that `adv_init` followed by `ops` builds on the zero-initialised
buffer (the zero-initialised buffer itself when the build faults). -/
def sample_build (env : Env) (ops : List Append) : legacyAdv_s :=
  match append_all env (adv_init zero_adv) ops with
  | .ok adv => adv
  | .error _ => zero_adv

/-- The variables after the boot branch has built both buffers, when the
attribute store returned `name`. -/
def boot_state (env : Env) (s : App) (name : List Nat) : App :=
  { advertising_set_handle := env.create_set_handle,
    conn := s.conn,
    address := s.address,
    legacyMain :=
      { length := 3 + (2 + name.length),
        payload := overlay (overlay s.legacyMain.payload 0 (flags_element 6)) 3
          (name_element name) },
    legacyScan :=
      { length := 22,
        payload := overlay s.legacyScan.payload 0
          (manufacturer_element 0x2ff env.gattdb_address env.gattdb_device_name 14 marker) } }

/-- Modelled from the spec: the dispatcher that calls `sl_bt_on_event` is not
part of the source file.  Events are handled one at a time, in order, each in
the environment current when it arrives; after a fault the device has
stopped and the remaining events are not handled.  `cmds` collects the
commands of the handled events in order. -/
def run (s : App) : List (Env × Event) → Outcome
  | [] => { cmds := [], next := .ok s }
  | (env, evt) :: rest =>
      match (sl_bt_on_event env s evt).next with
      | .ok s' =>
          { cmds := (sl_bt_on_event env s evt).cmds ++ (run s' rest).cmds,
            next := (run s' rest).next }
      | .error f => { cmds := (sl_bt_on_event env s evt).cmds, next := .error f }

/-- An environment in which every stack command returns the status 1. -/
def failing_env : Env :=
  { size_bits := 32, gattdb_device_name := 11, gattdb_address := 27, status := fun _ => 1,
    create_set_handle := 0, read_attribute_value := fun _ _ _ => (0, []),
    tick_count := 0x01020304, empty_value_data0 := 0 }

/-- An environment in which every stack command succeeds and the read of the
device name returns the status 1. -/
def read_failing_env : Env :=
  { size_bits := 32, gattdb_device_name := 11, gattdb_address := 27, status := fun _ => 0,
    create_set_handle := 0, read_attribute_value := fun _ _ _ => (1, []),
    tick_count := 0x01020304, empty_value_data0 := 0 }

/-- The variables an outcome ends in (the initial ones when it ends in a fault). -/
def outcome_state (o : Outcome) : App :=
  match o.next with
  | .ok s => s
  | .error _ => app_initial

/-- Whether the event is a connection-opened event. -/
def Event.opens_connection : Event → Bool
  | .connection_opened _ => true
  | _ => false

/-- Whether the event is an attribute write request. -/
def Event.writes_attribute : Event → Bool
  | .gatt_server_user_write_request _ _ _ => true
  | _ => false

/-- Whether the event is one of those whose branch of `sl_bt_on_event` calls
no stack command: connection opened, connection closed, or an event handled
by the default branch. -/
def Event.silent : Event → Bool
  | .connection_opened _ => true
  | .connection_closed => true
  | .unhandled => true
  | _ => false

/-- The variables after a boot from the initial ones with the name `AB`. -/
def sample_booted : App :=
  outcome_state (sl_bt_on_event (sample_env [0x41, 0x42]) app_initial .system_boot)

/-- A connection is opened with handle 3, a write request with a value of
length 0 arrives, then the sync transfer, and one subevent is reported. -/
def sample_events : List (Env × Event) :=
  [(sample_env [], .connection_opened 3),
   (sample_env [], .gatt_server_user_write_request 3 27 []),
   (sample_env [], .pawr_sync_transfer_received),
   (sample_env [], .pawr_sync_subevent_report 1 2 7)]

/-- The variables after `sample_events` have been handled from `sample_booted`. -/
def sample_synced : App :=
  outcome_state (run sample_booted sample_events)

/-! ## Basic facts -/

theorem overlay_nil (p : Nat → Nat) (off j : Nat) : overlay p off [] j = p j := by
  simp [overlay]

theorem overlay_cons (p : Nat → Nat) (off b : Nat) (bs : List Nat) (j : Nat) :
    overlay p off (b :: bs) j = if j = off then b else overlay p (off + 1) bs j := by
  unfold overlay
  by_cases h : j = off
  · subst h; simp
  · by_cases h2 : off < j
    · obtain ⟨k, rfl⟩ : ∃ k, j = off + 1 + k := ⟨j - (off + 1), by omega⟩
      have e1 : off + 1 + k - off = k + 1 := by omega
      have e2 : off + 1 + k - (off + 1) = k := by omega
      simp only [h, e1, e2, List.length_cons, List.getD_cons_succ, if_false]
      by_cases h3 : k < bs.length
      · rw [if_pos ⟨by omega, by omega⟩, if_pos ⟨by omega, by omega⟩]
      · rw [if_neg (by omega), if_neg (by omega)]
    · rw [if_neg h, if_neg (by omega), if_neg (by omega)]

theorem adv_ext (a b : legacyAdv_s) (hl : a.length = b.length)
    (hp : ∀ j, a.payload j = b.payload j) : a = b := by
  cases a; cases b
  simp only [legacyAdv_s.mk.injEq]
  exact ⟨hl, funext hp⟩

theorem push_ok (adv : legacyAdv_s) (v : Nat) (h : adv.length < 31) :
    push adv v = .ok { length := adv.length + 1,
                       payload := fun j => if j = adv.length then v % 256 else adv.payload j } := by
  have e : (adv.length + 1) % 256 = adv.length + 1 := Nat.mod_eq_of_lt (by omega)
  simp [push, PAYLOAD_SIZE, h, e]

theorem push_oob (adv : legacyAdv_s) (v : Nat) (h : 31 ≤ adv.length) :
    push adv v = .error .out_of_bounds := by
  simp [push, PAYLOAD_SIZE]; omega

theorem memcpy_ok (adv : legacyAdv_s) (off : Nat) (src : List Nat) (n : Nat)
    (h1 : n ≤ src.length) (h2 : off + n ≤ 31) :
    memcpy adv off src n =
      .ok { length := adv.length, payload := overlay adv.payload off (src.take n) } := by
  simp [memcpy, PAYLOAD_SIZE, h2, Nat.not_lt.mpr h1]

theorem adv_add_flags_eq (adv : legacyAdv_s) (flags : Nat) (h : adv.length + 3 ≤ 31) :
    adv_add_flags adv flags =
      .ok { length := adv.length + 3,
            payload := overlay adv.payload adv.length (flags_element flags) } := by
  unfold adv_add_flags
  rw [push_ok adv 2 (by omega)]
  simp only [bind, Except.bind]
  rw [push_ok _ 1 (by simp only []; omega)]
  simp only [bind, Except.bind]
  rw [push_ok _ flags (by simp only []; omega)]
  refine congrArg Except.ok (adv_ext _ _ rfl fun j => ?_)
  simp only [flags_element, overlay_cons, overlay_nil]
  split_ifs <;> first | rfl | omega

theorem adv_add_flags_oob (adv : legacyAdv_s) (flags : Nat) (h : 31 < adv.length + 3) :
    adv_add_flags adv flags = .error .out_of_bounds := by
  unfold adv_add_flags
  by_cases h1 : adv.length < 31
  · rw [push_ok adv 2 h1]
    simp only [bind, Except.bind]
    by_cases h2 : adv.length + 1 < 31
    · rw [push_ok _ 1 h2]
      simp only [bind, Except.bind]
      exact push_oob _ _ (by simp only []; omega)
    · rw [push_oob _ 1 (by simp only []; omega)]
  · rw [push_oob adv 2 (by omega)]
    rfl

theorem adv_add_name_max_length_eq (w : Nat) (n : Nat) (hw : 31 < 2 ^ w)
    (h : n ≤ 29) : adv_add_name_max_length w n = 31 - n - 2 := by
  unfold adv_add_name_max_length PAYLOAD_SIZE
  have hw' : (31 : Int) < (2 : Int) ^ w := by exact_mod_cast hw
  have e : ((31 : Nat) : Int) - (n : Int) - 2 = ((31 - n - 2 : Nat) : Int) := by
    omega
  rw [e, Int.emod_eq_of_lt (by omega) (by omega)]
  simp

theorem adv_add_name_eq (env : Env) (adv : legacyAdv_s) (name : List Nat)
    (hr : env.read_attribute_value env.gattdb_device_name 0
            (adv_add_name_max_length env.size_bits adv.length) = (0, name))
    (h : adv.length + 2 + name.length ≤ 31) :
    adv_add_name env adv =
      .ok { length := adv.length + 2 + name.length,
            payload := overlay adv.payload adv.length (name_element name) } := by
  unfold adv_add_name
  simp only [hr, app_assert_status, if_true, bind, Except.bind]
  rw [memcpy_ok _ _ _ _ (le_refl _) (by omega)]
  simp only []
  rw [push_ok _ _ (by simp only []; omega)]
  simp only []
  rw [push_ok _ _ (by simp only []; omega)]
  simp only [pure, Except.pure]
  have e : (adv.length + 1 + 1 + name.length) % 256 = adv.length + 2 + name.length := by
    rw [Nat.mod_eq_of_lt (by omega)]
  refine congrArg Except.ok (adv_ext _ _ e fun j => ?_)
  simp only [name_element, overlay_cons, List.take_length]
  have e9 : (9 : Nat) % 256 = 9 := rfl
  split_ifs <;> first | rfl | omega

theorem adv_add_name_assert (env : Env) (adv : legacyAdv_s)
    (hr : (env.read_attribute_value env.gattdb_device_name 0
            (adv_add_name_max_length env.size_bits adv.length)).1 ≠ 0) :
    adv_add_name env adv = .error .assert_failed := by
  unfold adv_add_name
  simp only [app_assert_status, hr, if_false, bind, Except.bind]

theorem adv_add_manufacturer_data_eq (adv : legacyAdv_s)
    (id address_handle name_handle length : Nat) (data : List Nat)
    (hd : length ≤ data.length) (h : adv.length + 8 + length ≤ 31) :
    adv_add_manufacturer_data adv id address_handle name_handle length data =
      .ok { length := adv.length + 8 + length,
            payload := overlay adv.payload adv.length
              (manufacturer_element id address_handle name_handle length data) } := by
  have m : ∀ k, k ≤ 31 → k % 256 = k := fun k hk => Nat.mod_eq_of_lt (by omega)
  unfold adv_add_manufacturer_data
  rw [push_ok _ _ (by omega)]
  simp only [bind, Except.bind]
  rw [push_ok _ _ (by simp only []; omega)]
  simp only []
  rw [memcpy_ok _ _ _ _ (by simp [bytes_of_u16]) (by omega)]
  simp only [m (adv.length + 1 + 1 + 2) (by omega)]
  rw [memcpy_ok _ _ _ _ (by simp [bytes_of_u16]) (by omega)]
  simp only [m (adv.length + 1 + 1 + 2 + 2) (by omega)]
  rw [memcpy_ok _ _ _ _ (by simp [bytes_of_u16]) (by omega)]
  simp only [m (adv.length + 1 + 1 + 2 + 2 + 2) (by omega)]
  rw [memcpy_ok _ _ _ _ hd (by omega)]
  simp only [pure, Except.pure, m (adv.length + 1 + 1 + 2 + 2 + 2 + length) (by omega)]
  refine congrArg Except.ok (adv_ext _ _ rfl fun j => ?_)
  simp only [manufacturer_element, bytes_of_u16, List.take, List.cons_append, List.nil_append,
    overlay_cons, overlay_nil]
  have e8 : adv.length + 1 + 1 + 1 + 1 + 1 + 1 + 1 + 1 = adv.length + 1 + 1 + 2 + 2 + 2 := by
    omega
  have eff : (255 : Nat) % 256 = 255 := rfl
  rw [e8]
  have key : ∀ q : Nat → Nat,
      overlay q (adv.length + 1 + 1 + 2 + 2 + 2) (List.take length data) j =
        if adv.length + 1 + 1 + 2 + 2 + 2 ≤ j ∧
            j < adv.length + 1 + 1 + 2 + 2 + 2 + (List.take length data).length
        then (List.take length data).getD (j - (adv.length + 1 + 1 + 2 + 2 + 2)) 0
        else q j := fun _ => rfl
  have hc : j < adv.length ∨ j = adv.length ∨ j = adv.length + 1 ∨ j = adv.length + 2 ∨
      j = adv.length + 3 ∨ j = adv.length + 4 ∨ j = adv.length + 5 ∨ j = adv.length + 6 ∨
      j = adv.length + 7 ∨
      (adv.length + 1 + 1 + 2 + 2 + 2 ≤ j ∧
        j < adv.length + 1 + 1 + 2 + 2 + 2 + (List.take length data).length) ∨
      adv.length + 1 + 1 + 2 + 2 + 2 + (List.take length data).length ≤ j := by omega
  rcases hc with hc | hc | hc | hc | hc | hc | hc | hc | hc | hc | hc <;>
    simp (disch := omega) only [key, overlay_cons, overlay_nil, if_pos, if_neg, eff]

theorem adv_add_name_oob (env : Env) (adv : legacyAdv_s) (name : List Nat)
    (hr : env.read_attribute_value env.gattdb_device_name 0
            (adv_add_name_max_length env.size_bits adv.length) = (0, name))
    (h : 31 < adv.length + 2 + name.length) :
    adv_add_name env adv = .error .out_of_bounds := by
  unfold adv_add_name
  simp only [hr, app_assert_status, if_true, bind, Except.bind, memcpy, PAYLOAD_SIZE]
  rw [if_neg (by omega), if_neg (by omega)]

theorem memcpy_oob (adv : legacyAdv_s) (off : Nat) (src : List Nat) (n : Nat)
    (h : src.length < n ∨ 31 < off + n) :
    memcpy adv off src n = .error .out_of_bounds := by
  unfold memcpy PAYLOAD_SIZE
  by_cases h1 : src.length < n
  · rw [if_pos h1]
  · rw [if_neg h1, if_neg (by omega)]

theorem adv_add_manufacturer_data_oob (adv : legacyAdv_s)
    (id address_handle name_handle length : Nat) (data : List Nat)
    (h : data.length < length ∨ 31 < adv.length + 8 + length) :
    adv_add_manufacturer_data adv id address_handle name_handle length data =
      .error .out_of_bounds := by
  have m : ∀ k, k ≤ 31 → k % 256 = k := fun k hk => Nat.mod_eq_of_lt (by omega)
  have l2 : ∀ v, 2 ≤ (bytes_of_u16 v).length := fun v => by simp [bytes_of_u16]
  unfold adv_add_manufacturer_data
  by_cases h1 : adv.length < 31
  swap
  · rw [push_oob _ _ (by omega)]; rfl
  rw [push_ok _ _ h1]
  simp only [bind, Except.bind]
  by_cases h2 : adv.length + 1 < 31
  swap
  · rw [push_oob _ _ (by simp only []; omega)]
  rw [push_ok _ _ h2]
  simp only []
  by_cases h3 : adv.length + 4 ≤ 31
  swap
  · rw [memcpy_oob _ _ _ _ (Or.inr (by omega))]
  rw [memcpy_ok _ _ _ _ (l2 _) (by omega)]
  simp only [m (adv.length + 1 + 1 + 2) (by omega)]
  by_cases h4 : adv.length + 6 ≤ 31
  swap
  · rw [memcpy_oob _ _ _ _ (Or.inr (by omega))]
  rw [memcpy_ok _ _ _ _ (l2 _) (by omega)]
  simp only [m (adv.length + 1 + 1 + 2 + 2) (by omega)]
  by_cases h5 : adv.length + 8 ≤ 31
  swap
  · rw [memcpy_oob _ _ _ _ (Or.inr (by omega))]
  rw [memcpy_ok _ _ _ _ (l2 _) (by omega)]
  simp only [m (adv.length + 1 + 1 + 2 + 2 + 2) (by omega)]
  rw [memcpy_oob _ _ _ _ (by omega)]

theorem adv_add_flags_append (adv : legacyAdv_s) (flags : Nat) :
    adv_add_flags adv flags = append_bytes adv (flags_element flags) := by
  unfold append_bytes
  by_cases h : adv.length + 3 ≤ 31
  · rw [adv_add_flags_eq adv flags h, if_pos (by simpa [flags_element] using h)]
    simp [flags_element]
  · rw [adv_add_flags_oob adv flags (by omega), if_neg (by simpa [flags_element] using h)]

theorem manufacturer_element_length (id address_handle name_handle length : Nat)
    (data : List Nat) (hd : length ≤ data.length) :
    (manufacturer_element id address_handle name_handle length data).length = 8 + length := by
  simp [manufacturer_element, bytes_of_u16, Nat.min_eq_left hd]
  omega

theorem Append.apply_eq (env : Env) (adv : legacyAdv_s) (op : Append) :
    op.apply env adv = (op.element env adv.length).bind (append_bytes adv) := by
  cases op with
  | flags f => exact adv_add_flags_append adv f
  | name =>
      simp only [Append.apply, Append.element]
      rcases hr : env.read_attribute_value env.gattdb_device_name 0
        (adv_add_name_max_length env.size_bits adv.length) with ⟨sc, name⟩
      by_cases hs : sc = 0
      · subst hs
        simp only [if_true, Except.bind, append_bytes]
        have hl : (name_element name).length = 2 + name.length := by
          simp [name_element]; omega
        by_cases h : adv.length + 2 + name.length ≤ 31
        · rw [adv_add_name_eq env adv name hr h, if_pos (by omega), hl]
          congr 2; omega
        · rw [adv_add_name_oob env adv name hr (by omega), if_neg (by omega)]
      · simp only [hs, if_false, Except.bind]
        exact adv_add_name_assert env adv (by simpa [hr] using hs)
  | manufacturer_data id address_handle name_handle length data =>
      simp only [Append.apply, Append.element]
      by_cases hd : length ≤ data.length
      · simp only [hd, if_true, Except.bind, append_bytes,
          manufacturer_element_length id address_handle name_handle length data hd]
        by_cases h : adv.length + 8 + length ≤ 31
        · rw [adv_add_manufacturer_data_eq adv _ _ _ _ _ hd h, if_pos (by omega)]
          congr 2; omega
        · rw [adv_add_manufacturer_data_oob adv _ _ _ _ _ (Or.inr (by omega)),
            if_neg (by omega)]
      · simp only [hd, if_false, Except.bind]
        exact adv_add_manufacturer_data_oob adv _ _ _ _ _ (Or.inl (by omega))

theorem overlay_lt (p : Nat → Nat) (off : Nat) (bs : List Nat) (j : Nat) (h : j < off) :
    overlay p off bs j = p j := by
  unfold overlay
  rw [if_neg (by omega)]

theorem overlay_ge (p : Nat → Nat) (off : Nat) (bs : List Nat) (j : Nat)
    (h : off + bs.length ≤ j) : overlay p off bs j = p j := by
  unfold overlay
  rw [if_neg (by omega)]

theorem overlay_at (p : Nat → Nat) (off : Nat) (bs : List Nat) (k : Nat)
    (h : k < bs.length) : bs[k]? = some (overlay p off bs (off + k)) := by
  unfold overlay
  rw [if_pos ⟨by omega, by omega⟩, Nat.add_sub_cancel_left, List.getD_eq_getElem _ _ h,
    List.getElem?_eq_getElem h]

/-! ## The encoder claims -/

/-- C1 (code evaluated at the failing inputs).  After `adv_init`,
`adv_add_flags` with 6 and `adv_add_name` with the one-byte name `A`, the
buffer has length 6 and the elements start at 0 and 3, but the walk that
advances by `payload[i] + 1` leaves offset 3 for offset 7, past `length`.
After `adv_init` and `adv_add_manufacturer_data` with the 14-byte marker the
buffer has length 22 and one element starting at 0, but the walk visits
offsets 0 and 20 and stops at 130. -/
theorem C1_walk_does_not_end_at_length :
    (∃ adv, append_all (sample_env [0x41]) (adv_init zero_adv) [.flags 6, .name] = .ok adv ∧
        element_starts (sample_env [0x41]) (adv_init zero_adv) [.flags 6, .name] = [0, 3] ∧
        adv.length = 6 ∧ adv_data adv = [2, 1, 6, 3, 9, 0x41] ∧
        walk adv 31 0 = ([0, 3], 7)) ∧
    (∃ adv, append_all (sample_env [0x41]) (adv_init zero_adv)
          [.manufacturer_data 0x2ff 27 11 14 marker] = .ok adv ∧
        element_starts (sample_env [0x41]) (adv_init zero_adv)
          [.manufacturer_data 0x2ff 27 11 14 marker] = [0] ∧
        adv.length = 22 ∧ walk adv 31 0 = ([0, 20], 130)) :=
  ⟨⟨_, rfl, rfl, rfl, rfl, rfl⟩, ⟨_, rfl, rfl, rfl, rfl⟩⟩

/-- C2 (counterexample).  On the empty buffer, with the 14-byte marker as
data, `0 + 14 + 7 <= 31` holds and `adv_add_manufacturer_data` leaves the
length at 22, which is not `0 + 14 + 7`. -/
theorem C2_length_is_not_D_plus_7 :
    zero_adv.length + marker.length + 7 ≤ 31 ∧
    (legacyAdv_s.length <$> adv_add_manufacturer_data zero_adv 0x2ff 27 11 14 marker) = .ok 22 ∧
    (22 : Nat) ≠ zero_adv.length + marker.length + 7 :=
  ⟨by decide, rfl, by decide⟩

/-- C2 (amended).  For every buffer with length `n` and every data of length
`D` with `n + D + 8 <= 31`, `adv_add_manufacturer_data` returns normally and
increases the length of the buffer by exactly `D + 8`. -/
theorem C2_manufacturer_data_adds_D_plus_8 (adv : legacyAdv_s)
    (id address_handle name_handle D : Nat) (data : List Nat)
    (hD : data.length = D) (h : adv.length + D + 8 ≤ 31) :
    ∃ adv', adv_add_manufacturer_data adv id address_handle name_handle D data = .ok adv' ∧
      adv'.length = adv.length + (D + 8) :=
  ⟨_, adv_add_manufacturer_data_eq adv id address_handle name_handle D data (by omega)
        (by omega), by simp only []; omega⟩

/-- Witness of `C2_manufacturer_data_adds_D_plus_8`: the scan-response
buffer of the boot sequence. -/
theorem C2_manufacturer_data_adds_D_plus_8_witness :
    ∃ adv', adv_add_manufacturer_data zero_adv 0x2ff 27 11 14 marker = .ok adv' ∧
      adv'.length = zero_adv.length + (14 + 8) :=
  C2_manufacturer_data_adds_D_plus_8 zero_adv 0x2ff 27 11 14 marker rfl (by decide)

/-- C3.  For every buffer with length `n`, every 16-bit company id, address
handle and name handle and every data of length `D` with `n + 8 + D <= 31`,
`adv_add_manufacturer_data` returns normally with length `n + (2 + 6 + D)`;
`payload[n]` is `D + 5`, `payload[n+1]` is `0xFF`, the next six bytes are the
company id, the address handle and the name handle, each low byte first, the
next `D` bytes are the data in order, and the bytes below `n` are unchanged. -/
theorem C3_manufacturer_data_layout (adv : legacyAdv_s)
    (id address_handle name_handle D : Nat) (data : List Nat)
    (hid : id < 2 ^ 16) (hah : address_handle < 2 ^ 16) (hnh : name_handle < 2 ^ 16)
    (hD : data.length = D) (h : adv.length + 8 + D ≤ 31) :
    ∃ adv', adv_add_manufacturer_data adv id address_handle name_handle D data = .ok adv' ∧
      adv'.length = adv.length + (2 + 6 + D) ∧
      adv'.payload adv.length = D + 5 ∧
      adv'.payload (adv.length + 1) = 0xff ∧
      adv'.payload (adv.length + 2) = id % 256 ∧
      adv'.payload (adv.length + 3) = id / 256 ∧
      adv'.payload (adv.length + 4) = address_handle % 256 ∧
      adv'.payload (adv.length + 5) = address_handle / 256 ∧
      adv'.payload (adv.length + 6) = name_handle % 256 ∧
      adv'.payload (adv.length + 7) = name_handle / 256 ∧
      (∀ k, k < D → data[k]? = some (adv'.payload (adv.length + 8 + k))) ∧
      (∀ i, i < adv.length → adv'.payload i = adv.payload i) := by
  have hm : ∀ v, v < 2 ^ 16 → v / 256 % 256 = v / 256 := fun v hv =>
    Nat.mod_eq_of_lt (by omega)
  have h5 : (D + 5) % 256 = D + 5 := Nat.mod_eq_of_lt (by omega)
  have ht : List.take D data = data := by subst hD; simp
  refine ⟨_, adv_add_manufacturer_data_eq adv id address_handle name_handle D data (by omega) h,
    by simp only []; omega, ?_, ?_, ?_, ?_, ?_, ?_, ?_, ?_, ?_, ?_⟩
  · simp (disch := omega) only [manufacturer_element, overlay_cons, if_pos, if_true, h5]
  · simp (disch := omega) only [manufacturer_element, overlay_cons, if_pos, if_neg, if_true]
  · simp (disch := omega) only [manufacturer_element, bytes_of_u16, List.cons_append,
      List.nil_append, overlay_cons, if_pos, if_neg, if_true]
  · simp (disch := omega) only [manufacturer_element, bytes_of_u16, List.cons_append,
      List.nil_append, overlay_cons, if_pos, if_neg, if_true, hm id hid]
  · simp (disch := omega) only [manufacturer_element, bytes_of_u16, List.cons_append,
      List.nil_append, overlay_cons, if_pos, if_neg, if_true]
  · simp (disch := omega) only [manufacturer_element, bytes_of_u16, List.cons_append,
      List.nil_append, overlay_cons, if_pos, if_neg, if_true, hm address_handle hah]
  · simp (disch := omega) only [manufacturer_element, bytes_of_u16, List.cons_append,
      List.nil_append, overlay_cons, if_pos, if_neg, if_true]
  · simp (disch := omega) only [manufacturer_element, bytes_of_u16, List.cons_append,
      List.nil_append, overlay_cons, if_pos, if_neg, if_true, hm name_handle hnh]
  · intro k hk
    simp (disch := omega) only [manufacturer_element, bytes_of_u16, List.cons_append,
      List.nil_append, overlay_cons, if_neg, if_true, ht]
    have e : adv.length + 8 + k = adv.length + 1 + 1 + 1 + 1 + 1 + 1 + 1 + 1 + k := by omega
    rw [e]
    exact overlay_at _ _ _ _ (by omega)
  · intro i hi
    exact overlay_lt _ _ _ _ hi

/-- Witness of `C3_manufacturer_data_layout`: the call of the boot sequence. -/
theorem C3_manufacturer_data_layout_witness :
    ∃ adv', adv_add_manufacturer_data zero_adv 0x2ff 27 11 14 marker = .ok adv' ∧
      adv'.length = zero_adv.length + (2 + 6 + 14) ∧
      adv'.payload zero_adv.length = 14 + 5 ∧
      adv'.payload (zero_adv.length + 1) = 0xff ∧
      adv'.payload (zero_adv.length + 2) = 0x2ff % 256 ∧
      adv'.payload (zero_adv.length + 3) = 0x2ff / 256 ∧
      adv'.payload (zero_adv.length + 4) = 27 % 256 ∧
      adv'.payload (zero_adv.length + 5) = 27 / 256 ∧
      adv'.payload (zero_adv.length + 6) = 11 % 256 ∧
      adv'.payload (zero_adv.length + 7) = 11 / 256 ∧
      (∀ k, k < 14 → marker[k]? = some (adv'.payload (zero_adv.length + 8 + k))) ∧
      (∀ i, i < zero_adv.length → adv'.payload i = zero_adv.payload i) :=
  C3_manufacturer_data_layout zero_adv 0x2ff 27 11 14 marker (by decide) (by decide)
    (by decide) rfl (by decide)

/-- C4.  For every flags value and every name of length `L <= 26` that the
attribute store returns to the read issued at length 3, `adv_init` followed
by `adv_add_flags` followed by `adv_add_name` returns normally with
`length = 3 + (2 + L)`, `payload[0] = 2` and `payload[1] = 1`. -/
theorem C4_flags_then_name (env : Env) (adv : legacyAdv_s) (flags : Nat) (name : List Nat)
    (hr : env.read_attribute_value env.gattdb_device_name 0
            (adv_add_name_max_length env.size_bits 3) = (0, name))
    (hL : name.length ≤ 26) :
    ∃ adv', (adv_add_flags (adv_init adv) flags >>= adv_add_name env) = .ok adv' ∧
      adv'.length = 3 + (2 + name.length) ∧ adv'.payload 0 = 2 ∧ adv'.payload 1 = 1 := by
  have h0 : (adv_init adv).length = 0 := rfl
  rw [adv_add_flags_eq (adv_init adv) flags (by omega)]
  simp only [bind, Except.bind, h0, Nat.zero_add]
  rw [adv_add_name_eq env _ name hr (by simp only []; omega)]
  refine ⟨_, rfl, by simp only []; omega, ?_, ?_⟩
  · simp only []
    rw [overlay_lt _ _ _ _ (by omega)]
    simp (disch := omega) only [flags_element, overlay_cons, if_pos, if_true]
  · simp only []
    rw [overlay_lt _ _ _ _ (by omega)]
    simp (disch := omega) only [flags_element, overlay_cons, if_pos, if_neg, if_true]

/-- Witness of `C4_flags_then_name`: flags 6 and the two-byte name `AB`. -/
theorem C4_flags_then_name_witness :
    ∃ adv', (adv_add_flags (adv_init zero_adv) 6 >>= adv_add_name (sample_env [0x41, 0x42]))
        = .ok adv' ∧
      adv'.length = 3 + (2 + [0x41, 0x42].length) ∧ adv'.payload 0 = 2 ∧ adv'.payload 1 = 1 :=
  C4_flags_then_name (sample_env [0x41, 0x42]) zero_adv 6 [0x41, 0x42] rfl (by decide)

/-- C5.  For every buffer with length `n` such that `n + 3 <= 31` and every
flags byte `f`, `adv_add_flags` returns normally with length `n + 3`,
`payload[n] = 2`, `payload[n+1] = 0x01`, `payload[n+2] = f`, and every payload
byte at an offset other than `n`, `n+1`, `n+2` is unchanged. -/
theorem C5_flags_layout (adv : legacyAdv_s) (f : Nat) (hf : f < 256)
    (h : adv.length + 3 ≤ 31) :
    ∃ adv', adv_add_flags adv f = .ok adv' ∧
      adv'.length = adv.length + 3 ∧
      adv'.payload adv.length = 2 ∧
      adv'.payload (adv.length + 1) = 0x01 ∧
      adv'.payload (adv.length + 2) = f ∧
      (∀ j, j ≠ adv.length → j ≠ adv.length + 1 → j ≠ adv.length + 2 →
        adv'.payload j = adv.payload j) := by
  have hf' : f % 256 = f := Nat.mod_eq_of_lt hf
  refine ⟨_, adv_add_flags_eq adv f h, rfl, ?_, ?_, ?_, ?_⟩
  · simp (disch := omega) only [flags_element, overlay_cons, if_pos, if_true]
  · simp (disch := omega) only [flags_element, overlay_cons, if_pos, if_neg, if_true]
  · simp (disch := omega) only [flags_element, overlay_cons, if_pos, if_neg, if_true, hf']
  · intro j h0 h1 h2
    simp (disch := omega) only [flags_element, overlay_cons, overlay_nil, if_neg]

/-- Witness of `C5_flags_layout`: the call of the boot sequence. -/
theorem C5_flags_layout_witness :
    ∃ adv', adv_add_flags zero_adv 6 = .ok adv' ∧
      adv'.length = zero_adv.length + 3 ∧
      adv'.payload zero_adv.length = 2 ∧
      adv'.payload (zero_adv.length + 1) = 0x01 ∧
      adv'.payload (zero_adv.length + 2) = 6 ∧
      (∀ j, j ≠ zero_adv.length → j ≠ zero_adv.length + 1 → j ≠ zero_adv.length + 2 →
        adv'.payload j = zero_adv.payload j) :=
  C5_flags_layout zero_adv 6 (by decide) (by decide)

/-- C6.  For every buffer with length `n <= 29` (and `size_t` wide enough to
hold 31), the ceiling computed by `adv_add_name` is `31 - n - 2`; when the
read of the device-name attribute with that ceiling succeeds and returns
`L <= 31 - n - 2` bytes, `adv_add_name` returns normally, the new length is
`n + 2 + L`, `payload[n+1]` is `0x09`, `payload[n+2 .. n+2+L)` holds the
returned bytes in order and the bytes below `n` are unchanged. -/
theorem C6_name_layout (env : Env) (adv : legacyAdv_s) (name : List Nat)
    (hw : 31 < 2 ^ env.size_bits) (hn : adv.length ≤ 29)
    (hr : env.read_attribute_value env.gattdb_device_name 0 (31 - adv.length - 2) = (0, name))
    (hL : name.length ≤ 31 - adv.length - 2) :
    adv_add_name_max_length env.size_bits adv.length = 31 - adv.length - 2 ∧
    ∃ adv', adv_add_name env adv = .ok adv' ∧
      adv'.length = adv.length + 2 + name.length ∧
      adv'.payload (adv.length + 1) = 0x09 ∧
      (∀ k, k < name.length → name[k]? = some (adv'.payload (adv.length + 2 + k))) ∧
      (∀ i, i < adv.length → adv'.payload i = adv.payload i) := by
  have hmax := adv_add_name_max_length_eq env.size_bits adv.length hw hn
  refine ⟨hmax, _, adv_add_name_eq env adv name (by rw [hmax]; exact hr) (by omega),
    rfl, ?_, ?_, ?_⟩
  · simp (disch := omega) only [name_element, overlay_cons, if_pos, if_neg, if_true]
  · intro k hk
    simp (disch := omega) only [name_element, overlay_cons, if_neg]
    have e : adv.length + 2 + k = adv.length + 1 + 1 + k := by omega
    rw [e]
    exact overlay_at _ _ _ _ hk
  · intro i hi
    exact overlay_lt _ _ _ _ hi

/-- Witness of `C6_name_layout`: the call of the boot sequence, on a buffer
holding the flags element, with the two-byte name `AB`. -/
theorem C6_name_layout_witness :
    adv_add_name_max_length (sample_env [0x41, 0x42]).size_bits
      (legacyAdv_s.mk 3 fun _ => 0).length = 31 - (legacyAdv_s.mk 3 fun _ => 0).length - 2 ∧
    ∃ adv', adv_add_name (sample_env [0x41, 0x42]) (legacyAdv_s.mk 3 fun _ => 0) = .ok adv' ∧
      adv'.length = (legacyAdv_s.mk 3 fun _ => 0).length + 2 + [0x41, 0x42].length ∧
      adv'.payload ((legacyAdv_s.mk 3 fun _ => 0).length + 1) = 0x09 ∧
      (∀ k, k < [0x41, 0x42].length →
        [0x41, 0x42][k]? = some (adv'.payload ((legacyAdv_s.mk 3 fun _ => 0).length + 2 + k))) ∧
      (∀ i, i < (legacyAdv_s.mk 3 fun _ => 0).length →
        adv'.payload i = (legacyAdv_s.mk 3 fun _ => 0).payload i) :=
  C6_name_layout (sample_env [0x41, 0x42]) (legacyAdv_s.mk 3 fun _ => 0) [0x41, 0x42]
    (by decide) (by decide) rfl (by decide)

theorem Append.apply_ok (env : Env) (adv adv' : legacyAdv_s) (op : Append)
    (h : op.apply env adv = .ok adv') :
    ∃ bs, op.element env adv.length = .ok bs ∧ adv.length + bs.length ≤ 31 ∧
      adv' = { length := adv.length + bs.length,
               payload := overlay adv.payload adv.length bs } := by
  rw [Append.apply_eq] at h
  cases he : op.element env adv.length with
  | error f => rw [he] at h; cases h
  | ok bs =>
      rw [he] at h
      simp only [Except.bind, append_bytes] at h
      by_cases hc : adv.length + bs.length ≤ 31
      · rw [if_pos hc] at h
        cases h
        exact ⟨bs, rfl, hc, rfl⟩
      · rw [if_neg hc] at h
        cases h

theorem append_all_cons_ok (env : Env) (adv adv1 : legacyAdv_s) (op : Append)
    (ops : List Append) (h : append_all env adv (op :: ops) = .ok adv1) :
    ∃ adv', op.apply env adv = .ok adv' ∧ append_all env adv' ops = .ok adv1 := by
  simp only [append_all, bind, Except.bind] at h
  cases ha : op.apply env adv with
  | error f => rw [ha] at h; cases h
  | ok adv' => rw [ha] at h; exact ⟨adv', rfl, h⟩

theorem append_all_frame (env : Env) (ops : List Append) :
    ∀ adv adv1 : legacyAdv_s, append_all env adv ops = .ok adv1 →
      adv.length ≤ adv1.length ∧ ∀ j, j < adv.length → adv1.payload j = adv.payload j := by
  induction ops with
  | nil =>
      intro adv adv1 h
      simp only [append_all] at h
      cases h
      exact ⟨le_refl _, fun _ _ => rfl⟩
  | cons op ops ih =>
      intro adv adv1 h
      obtain ⟨adv', ha, hrest⟩ := append_all_cons_ok env adv adv1 op ops h
      obtain ⟨bs, _, _, rfl⟩ := Append.apply_ok env adv adv' op ha
      obtain ⟨hlen, hpay⟩ := ih _ adv1 hrest
      simp only [] at hlen hpay
      refine ⟨by omega, fun j hj => ?_⟩
      rw [hpay j (by omega), overlay_lt _ _ _ _ hj]

theorem append_all_rebuild (env : Env) (ops : List Append) :
    ∀ adv adv1 adv2 : legacyAdv_s, append_all env adv ops = .ok adv1 →
      adv2.length = adv.length →
      (∀ j, adv.length ≤ j → adv2.payload j = adv1.payload j) →
      append_all env adv2 ops = .ok { length := adv1.length, payload := adv2.payload } := by
  induction ops with
  | nil =>
      intro adv adv1 adv2 h hl _
      simp only [append_all] at h ⊢
      cases h
      rw [← hl]
  | cons op ops ih =>
      intro adv adv1 adv2 h hl hp
      obtain ⟨adv', ha, hrest⟩ := append_all_cons_ok env adv adv1 op ops h
      obtain ⟨bs, he, hc, rfl⟩ := Append.apply_ok env adv adv' op ha
      obtain ⟨_, hpay⟩ := append_all_frame env ops _ adv1 hrest
      simp only [] at hpay
      have hsame : overlay adv2.payload adv.length bs = adv2.payload := by
        funext j
        by_cases hj : adv.length ≤ j ∧ j < adv.length + bs.length
        · rw [hp j hj.1, hpay j hj.2]
          unfold overlay
          rw [if_pos hj, if_pos hj]
        · unfold overlay
          rw [if_neg hj]
      have h2 : op.apply env adv2 =
          .ok { length := adv.length + bs.length, payload := adv2.payload } := by
        rw [Append.apply_eq, hl, he]
        simp only [Except.bind, append_bytes, hl, if_pos hc, hsame]
      simp only [append_all, bind, Except.bind, h2]
      exact ih _ adv1 _ hrest rfl (fun j hj => hp j (by simp only [] at hj; omega))

/-- C7.  Rebuilding is idempotent: for every buffer `adv`, every environment
(which fixes the returned name) and every sequence `ops` of encoder calls
with their arguments, if `adv_init` followed by `ops` builds `adv1` from
`adv`, then `adv_init` followed by the same `ops` on `adv1` builds `adv1`
again, with the same length and the same payload. -/
theorem C7_rebuild_idempotent (env : Env) (ops : List Append) (adv adv1 : legacyAdv_s)
    (h : append_all env (adv_init adv) ops = .ok adv1) :
    append_all env (adv_init adv1) ops = .ok adv1 :=
  append_all_rebuild env ops (adv_init adv) adv1 (adv_init adv1) h rfl (fun _ _ => rfl)

/-- Witness of `C7_rebuild_idempotent`: the main buffer of the boot
sequence, built on the zero-initialised buffer with the name `AB`. -/
theorem C7_rebuild_idempotent_witness :
    append_all (sample_env [0x41, 0x42])
        (adv_init (sample_build (sample_env [0x41, 0x42]) [.flags 6, .name]))
        [.flags 6, .name] =
      .ok (sample_build (sample_env [0x41, 0x42]) [.flags 6, .name]) :=
  C7_rebuild_idempotent (sample_env [0x41, 0x42]) [.flags 6, .name] zero_adv
    (sample_build (sample_env [0x41, 0x42]) [.flags 6, .name]) rfl

/-! ## The event handler claims -/

theorem boot_flags (s : App) :
    adv_add_flags (adv_init s.legacyMain) 6 =
      .ok { length := 3, payload := overlay s.legacyMain.payload 0 (flags_element 6) } :=
  adv_add_flags_eq (adv_init s.legacyMain) 6 (by simp [adv_init])

theorem boot_name (env : Env) (s : App) (name : List Nat)
    (hr : env.read_attribute_value env.gattdb_device_name 0
            (adv_add_name_max_length env.size_bits 3) = (0, name))
    (hL : name.length ≤ 26) :
    adv_add_name env
        { length := 3, payload := overlay s.legacyMain.payload 0 (flags_element 6) } =
      .ok (boot_state env s name).legacyMain := by
  rw [adv_add_name_eq env _ name hr (by simp only []; omega)]
  refine congrArg Except.ok (adv_ext _ _ ?_ fun j => rfl)
  simp only [boot_state]; omega

theorem boot_manufacturer_data (env : Env) (s : App) (name : List Nat) :
    adv_add_manufacturer_data (adv_init s.legacyScan) 0x2ff env.gattdb_address
        env.gattdb_device_name 14 marker = .ok (boot_state env s name).legacyScan :=
  adv_add_manufacturer_data_eq (adv_init s.legacyScan) _ _ _ 14 marker (by decide)
    (by simp [adv_init])

theorem sl_bt_on_event_boot (env : Env) (s : App) (name : List Nat)
    (hr : env.read_attribute_value env.gattdb_device_name 0
            (adv_add_name_max_length env.size_bits 3) = (0, name))
    (hL : name.length ≤ 26) :
    sl_bt_on_event env s .system_boot =
      (command_asserted env
        (.past_receiver_set_default_sync_receive_parameters .mode_synchronize 0 1000 .report_all) <|
      command_asserted env .advertiser_create_set <|
      command_asserted env
        (.legacy_advertiser_set_data env.create_set_handle 0
          (boot_state env s name).legacyMain.length (adv_data (boot_state env s name).legacyMain)) <|
      command_asserted env
        (.legacy_advertiser_set_data env.create_set_handle 1
          (boot_state env s name).legacyScan.length (adv_data (boot_state env s name).legacyScan)) <|
      command_asserted env (.advertiser_set_timing env.create_set_handle 160 160 0 0) <|
      start_advertising env (boot_state env s name)) := by
  have hf := boot_flags s
  have hn := boot_name env s name hr hL
  have hm := boot_manufacturer_data env s name
  simp only [sl_bt_on_event, hf, hn, hm]
  rfl

theorem command_asserted_ok (env : Env) (c : Cmd) (rest : Outcome) (h : env.status c = 0) :
    command_asserted env c rest = { cmds := c :: rest.cmds, next := rest.next } := by
  simp [command_asserted, app_assert_status, h]

theorem command_asserted_next (env : Env) (c : Cmd) (rest : Outcome) :
    (command_asserted env c rest).next =
      if env.status c = 0 then rest.next else .error .assert_failed := by
  unfold command_asserted app_assert_status
  by_cases h : env.status c = 0
  · simp only [h, if_true]
  · simp only [h, if_false]

theorem command_asserted_not_oob (env : Env) (c : Cmd) (rest : Outcome)
    (h : rest.next ≠ .error .out_of_bounds) :
    (command_asserted env c rest).next ≠ .error .out_of_bounds := by
  rw [command_asserted_next]
  by_cases hs : env.status c = 0
  · rw [if_pos hs]; exact h
  · rw [if_neg hs]; intro hc; cases hc

theorem command_asserted_next_ok (env : Env) (c : Cmd) (rest : Outcome) (s' : App)
    (h : (command_asserted env c rest).next = .ok s') : rest.next = .ok s' := by
  rw [command_asserted_next] at h
  by_cases hs : env.status c = 0
  · rw [if_pos hs] at h; exact h
  · rw [if_neg hs] at h; cases h

theorem le_decode_bytes_of_u32 (v : Nat) : le_decode (bytes_of_u32 v) = v % 2 ^ 32 := by
  simp only [le_decode, bytes_of_u32]
  omega

/-- C8.  For every device name of length `L <= 26` that the attribute store
returns to the read of the boot branch, and whatever the buffers held
before, the two builds of the boot branch (flags 6 then name on the main
buffer; manufacturer data with the 14-byte marker on the scan-response
buffer) return normally, so no payload byte is written at an index `>= 31`,
with both lengths `<= 31`; handling the boot event never ends in an
out-of-bounds fault, and when it returns the two buffers are those builds. -/
theorem C8_boot_build_in_bounds (env : Env) (s : App) (name : List Nat)
    (hr : env.read_attribute_value env.gattdb_device_name 0
            (adv_add_name_max_length env.size_bits 3) = (0, name))
    (hL : name.length ≤ 26) :
    ∃ m sc,
      append_all env (adv_init s.legacyMain) [.flags 6, .name] = .ok m ∧
      append_all env (adv_init s.legacyScan)
        [.manufacturer_data 0x2ff env.gattdb_address env.gattdb_device_name 14 marker]
        = .ok sc ∧
      m.length ≤ 31 ∧ sc.length ≤ 31 ∧
      (sl_bt_on_event env s .system_boot).next ≠ .error .out_of_bounds ∧
      ∀ s', (sl_bt_on_event env s .system_boot).next = .ok s' →
        s'.legacyMain = m ∧ s'.legacyScan = sc := by
  have hf := boot_flags s
  have hn := boot_name env s name hr hL
  have hm := boot_manufacturer_data env s name
  refine ⟨(boot_state env s name).legacyMain, (boot_state env s name).legacyScan, ?_, ?_, ?_, ?_,
    ?_, ?_⟩
  · simp only [append_all, Append.apply, bind, Except.bind, hf, hn]
  · simp only [append_all, Append.apply, bind, Except.bind, hm]
  · simp only [boot_state]; omega
  · simp only [boot_state]; omega
  · rw [sl_bt_on_event_boot env s name hr hL]
    refine command_asserted_not_oob _ _ _ (command_asserted_not_oob _ _ _
      (command_asserted_not_oob _ _ _ (command_asserted_not_oob _ _ _
      (command_asserted_not_oob _ _ _ (command_asserted_not_oob _ _ _ ?_)))))
    intro hc; cases hc
  · intro s' hs'
    rw [sl_bt_on_event_boot env s name hr hL] at hs'
    have h6 := command_asserted_next_ok _ _ _ _ (command_asserted_next_ok _ _ _ _
      (command_asserted_next_ok _ _ _ _ (command_asserted_next_ok _ _ _ _
      (command_asserted_next_ok _ _ _ _ (command_asserted_next_ok _ _ _ _ hs')))))
    cases h6
    exact ⟨rfl, rfl⟩

/-- Witness of `C8_boot_build_in_bounds`: boot from the initial variables
with a 26-byte name. -/
theorem C8_boot_build_in_bounds_witness :
    ∃ m sc,
      append_all (sample_env (List.replicate 26 0x41)) (adv_init app_initial.legacyMain)
        [.flags 6, .name] = .ok m ∧
      append_all (sample_env (List.replicate 26 0x41)) (adv_init app_initial.legacyScan)
        [.manufacturer_data 0x2ff (sample_env (List.replicate 26 0x41)).gattdb_address
          (sample_env (List.replicate 26 0x41)).gattdb_device_name 14 marker] = .ok sc ∧
      m.length ≤ 31 ∧ sc.length ≤ 31 ∧
      (sl_bt_on_event (sample_env (List.replicate 26 0x41)) app_initial .system_boot).next
        ≠ .error .out_of_bounds ∧
      ∀ s', (sl_bt_on_event (sample_env (List.replicate 26 0x41)) app_initial
          .system_boot).next = .ok s' →
        s'.legacyMain = m ∧ s'.legacyScan = sc :=
  C8_boot_build_in_bounds (sample_env (List.replicate 26 0x41)) app_initial
    (List.replicate 26 0x41) rfl (by decide)

/-- C9.  When every stack command succeeds and the read of the device name
succeeds with at most 26 bytes, handling the boot event returns normally and
issues exactly these commands, in this order: set default sync-receive
parameters (mode synchronize, skip 0, timeout 1000, report all), one
advertising-set creation, set-data for slot 0 with the length and payload of
the main buffer, set-data for slot 1 with the length and payload of the
scan-response buffer, one set-timing (min 160, max 160, duration 0, max
events 0), one start of connectable advertising; the last four are on the
handle returned by the set creation, which is the stored handle afterwards,
and the two buffers are the ones built by the encoder. -/
theorem C9_boot_command_sequence (env : Env) (s : App) (name : List Nat)
    (hs : ∀ c, env.status c = 0)
    (hr : env.read_attribute_value env.gattdb_device_name 0
            (adv_add_name_max_length env.size_bits 3) = (0, name))
    (hL : name.length ≤ 26) :
    ∃ s', (sl_bt_on_event env s .system_boot).next = .ok s' ∧
      s'.advertising_set_handle = env.create_set_handle ∧
      append_all env (adv_init s.legacyMain) [.flags 6, .name] = .ok s'.legacyMain ∧
      append_all env (adv_init s.legacyScan)
        [.manufacturer_data 0x2ff env.gattdb_address env.gattdb_device_name 14 marker]
        = .ok s'.legacyScan ∧
      (sl_bt_on_event env s .system_boot).cmds =
        [ .past_receiver_set_default_sync_receive_parameters .mode_synchronize 0 1000
            .report_all,
          .advertiser_create_set,
          .legacy_advertiser_set_data env.create_set_handle 0 s'.legacyMain.length
            (adv_data s'.legacyMain),
          .legacy_advertiser_set_data env.create_set_handle 1 s'.legacyScan.length
            (adv_data s'.legacyScan),
          .advertiser_set_timing env.create_set_handle 160 160 0 0,
          .legacy_advertiser_start env.create_set_handle .connectable ] := by
  have hf := boot_flags s
  have hn := boot_name env s name hr hL
  have hm := boot_manufacturer_data env s name
  refine ⟨boot_state env s name, ?_, rfl, ?_, ?_, ?_⟩
  · rw [sl_bt_on_event_boot env s name hr hL]
    simp only [start_advertising, command_asserted_ok _ _ _ (hs _)]
  · simp only [append_all, Append.apply, bind, Except.bind, hf, hn]
  · simp only [append_all, Append.apply, bind, Except.bind, hm]
  · rw [sl_bt_on_event_boot env s name hr hL]
    simp only [start_advertising, command_asserted_ok _ _ _ (hs _)]
    rfl

/-- Witness of `C9_boot_command_sequence`: boot from the initial variables
with the name `AB`. -/
theorem C9_boot_command_sequence_witness :
    ∃ s', (sl_bt_on_event (sample_env [0x41, 0x42]) app_initial .system_boot).next = .ok s' ∧
      s'.advertising_set_handle = (sample_env [0x41, 0x42]).create_set_handle ∧
      append_all (sample_env [0x41, 0x42]) (adv_init app_initial.legacyMain)
        [.flags 6, .name] = .ok s'.legacyMain ∧
      append_all (sample_env [0x41, 0x42]) (adv_init app_initial.legacyScan)
        [.manufacturer_data 0x2ff (sample_env [0x41, 0x42]).gattdb_address
          (sample_env [0x41, 0x42]).gattdb_device_name 14 marker] = .ok s'.legacyScan ∧
      (sl_bt_on_event (sample_env [0x41, 0x42]) app_initial .system_boot).cmds =
        [ .past_receiver_set_default_sync_receive_parameters .mode_synchronize 0 1000
            .report_all,
          .advertiser_create_set,
          .legacy_advertiser_set_data (sample_env [0x41, 0x42]).create_set_handle 0
            s'.legacyMain.length (adv_data s'.legacyMain),
          .legacy_advertiser_set_data (sample_env [0x41, 0x42]).create_set_handle 1
            s'.legacyScan.length (adv_data s'.legacyScan),
          .advertiser_set_timing (sample_env [0x41, 0x42]).create_set_handle 160 160 0 0,
          .legacy_advertiser_start (sample_env [0x41, 0x42]).create_set_handle .connectable ] :=
  C9_boot_command_sequence (sample_env [0x41, 0x42]) app_initial [0x41, 0x42]
    (fun _ => rfl) rfl (by decide)

/-- C10.  For every state and every subevent-report event (sync `S`, event
counter `C`, subevent `K`), with the sampled tick counter a 32-bit value `T`,
the handler issues exactly one set-response-data command whose sync is `S`,
event counter is `C`, request subevent and response subevent are both `K`,
response slot is the stored address, and whose payload is exactly 4 bytes
that decode, low byte first, to `T`; the stored state is unchanged. -/
theorem C10_subevent_report_response (env : Env) (s : App) (S C K : Nat)
    (hT : env.tick_count < 2 ^ 32) :
    ∃ data, (sl_bt_on_event env s (.pawr_sync_subevent_report S C K)).cmds =
        [.pawr_sync_set_response_data S C K K s.address 4 data] ∧
      data.length = 4 ∧ (∀ b ∈ data, b < 256) ∧ le_decode data = env.tick_count ∧
      (sl_bt_on_event env s (.pawr_sync_subevent_report S C K)).next = .ok s := by
  refine ⟨bytes_of_u32 (env.tick_count % 2 ^ 32), rfl, rfl, ?_, ?_, rfl⟩
  · intro b hb
    simp only [bytes_of_u32, List.mem_cons, List.mem_singleton, List.not_mem_nil, or_false] at hb
    omega
  · rw [le_decode_bytes_of_u32, Nat.mod_mod, Nat.mod_eq_of_lt hT]

/-- Witness of `C10_subevent_report_response`: subevent 7 with the tick
counter at `0x01020304`. -/
theorem C10_subevent_report_response_witness :
    ∃ data, (sl_bt_on_event (sample_env []) app_initial
        (.pawr_sync_subevent_report 1 2 7)).cmds =
        [.pawr_sync_set_response_data 1 2 7 7 app_initial.address 4 data] ∧
      data.length = 4 ∧ (∀ b ∈ data, b < 256) ∧
      le_decode data = (sample_env []).tick_count ∧
      (sl_bt_on_event (sample_env []) app_initial (.pawr_sync_subevent_report 1 2 7)).next
        = .ok app_initial :=
  C10_subevent_report_response (sample_env []) app_initial 1 2 7 (by decide)


/-! ## Failure handling -/

/-- C11 (code evaluated at the failing input).  A subevent-report event
handled while `sl_bt_pawr_sync_set_response_data` returns the status 1 does
not halt the device: the handler returns normally with the variables
unchanged, and a sync-closed event that follows is handled and issues a
later command. -/
theorem C11_subevent_report_failure_not_fatal :
    failing_env.status (.pawr_sync_set_response_data 1 2 7 7 app_initial.address 4
      (bytes_of_u32 failing_env.tick_count)) = 1 ∧
    (sl_bt_on_event failing_env app_initial (.pawr_sync_subevent_report 1 2 7)).cmds =
      [.pawr_sync_set_response_data 1 2 7 7 app_initial.address 4
        (bytes_of_u32 failing_env.tick_count)] ∧
    (sl_bt_on_event failing_env app_initial (.pawr_sync_subevent_report 1 2 7)).next =
      .ok app_initial ∧
    (run app_initial [(failing_env, .pawr_sync_subevent_report 1 2 7),
        (sample_env [], .sync_closed)]).cmds =
      [.pawr_sync_set_response_data 1 2 7 7 app_initial.address 4
        (bytes_of_u32 failing_env.tick_count),
       .legacy_advertiser_start app_initial.advertising_set_handle .connectable] :=
  ⟨rfl, rfl, rfl, rfl⟩

theorem command_asserted_cmds_fail (env : Env) (c : Cmd) (rest : Outcome)
    (h : env.status c ≠ 0) : (command_asserted env c rest).cmds = [c] := by
  simp [command_asserted, app_assert_status, h]

/-- C12.  If the read of the device-name attribute issued by the boot branch
returns a status other than success, `adv_add_name` fails its assertion, and
handling the boot event ends in that assertion failure with no command after
the advertising-set creation: the commands issued are the sync-receive
configuration alone or followed by the set creation, so no set-data,
set-timing or start-advertising command is issued. -/
theorem C12_name_read_failure_halts_boot (env : Env) (s : App)
    (hr : (env.read_attribute_value env.gattdb_device_name 0
            (adv_add_name_max_length env.size_bits 3)).1 ≠ 0) :
    (∀ adv : legacyAdv_s, adv.length = 3 → adv_add_name env adv = .error .assert_failed) ∧
    (sl_bt_on_event env s .system_boot).next = .error .assert_failed ∧
    ((sl_bt_on_event env s .system_boot).cmds =
        [.past_receiver_set_default_sync_receive_parameters .mode_synchronize 0 1000
          .report_all] ∨
      (sl_bt_on_event env s .system_boot).cmds =
        [.past_receiver_set_default_sync_receive_parameters .mode_synchronize 0 1000
          .report_all, .advertiser_create_set]) ∧
    ((∀ c, env.status c = 0) →
      (sl_bt_on_event env s .system_boot).cmds =
        [.past_receiver_set_default_sync_receive_parameters .mode_synchronize 0 1000
          .report_all, .advertiser_create_set]) := by
  have hn : adv_add_name env
        { length := 3, payload := overlay s.legacyMain.payload 0 (flags_element 6) } =
      .error .assert_failed := adv_add_name_assert env _ hr
  have hb : sl_bt_on_event env s .system_boot =
      (command_asserted env
        (.past_receiver_set_default_sync_receive_parameters .mode_synchronize 0 1000 .report_all) <|
      command_asserted env .advertiser_create_set <|
      { cmds := [], next := .error .assert_failed }) := by
    simp only [sl_bt_on_event, boot_flags s, hn]
  refine ⟨fun adv ha => adv_add_name_assert env adv (by rw [ha]; exact hr), ?_, ?_, ?_⟩
  · rw [hb]
    simp only [command_asserted_next]
    split_ifs <;> rfl
  · rw [hb]
    by_cases h1 : env.status (.past_receiver_set_default_sync_receive_parameters
        .mode_synchronize 0 1000 .report_all) = 0
    · right
      rw [command_asserted_ok _ _ _ h1]
      by_cases h2 : env.status .advertiser_create_set = 0
      · rw [command_asserted_ok _ _ _ h2]
      · rw [command_asserted_cmds_fail _ _ _ h2]
    · left
      exact command_asserted_cmds_fail _ _ _ h1
  · intro hs
    rw [hb, command_asserted_ok _ _ _ (hs _), command_asserted_ok _ _ _ (hs _)]

/-- Witness of `C12_name_read_failure_halts_boot`: boot from the initial
variables while the attribute read returns the status 1. -/
theorem C12_name_read_failure_halts_boot_witness :
    (∀ adv : legacyAdv_s, adv.length = 3 →
      adv_add_name read_failing_env adv = .error .assert_failed) ∧
    (sl_bt_on_event read_failing_env app_initial .system_boot).next = .error .assert_failed ∧
    ((sl_bt_on_event read_failing_env app_initial .system_boot).cmds =
        [.past_receiver_set_default_sync_receive_parameters .mode_synchronize 0 1000
          .report_all] ∨
      (sl_bt_on_event read_failing_env app_initial .system_boot).cmds =
        [.past_receiver_set_default_sync_receive_parameters .mode_synchronize 0 1000
          .report_all, .advertiser_create_set]) ∧
    ((∀ c, read_failing_env.status c = 0) →
      (sl_bt_on_event read_failing_env app_initial .system_boot).cmds =
        [.past_receiver_set_default_sync_receive_parameters .mode_synchronize 0 1000
          .report_all, .advertiser_create_set]) :=
  C12_name_read_failure_halts_boot read_failing_env app_initial (by decide)

/-! ## Frame facts of the handler -/

theorem boot_next_ok (env : Env) (s s1 : App)
    (h : (sl_bt_on_event env s .system_boot).next = .ok s1) :
    ∃ m sc, s1 = { advertising_set_handle := env.create_set_handle, conn := s.conn,
                   address := s.address, legacyMain := m, legacyScan := sc } := by
  simp only [sl_bt_on_event] at h
  have h2 := command_asserted_next_ok _ _ _ _ (command_asserted_next_ok _ _ _ _ h)
  split at h2
  · cases h2
  · split at h2
    · cases h2
    · split at h2
      · cases h2
      · rename_i m _ _ sc _
        simp only [start_advertising] at h2
        have h6 := command_asserted_next_ok _ _ _ _ (command_asserted_next_ok _ _ _ _
          (command_asserted_next_ok _ _ _ _ (command_asserted_next_ok _ _ _ _ h2)))
        cases h6
        exact ⟨_, _, rfl⟩

theorem command_asserted_single (env : Env) (c : Cmd) (n : Except Fault App) :
    (command_asserted env c { cmds := [], next := n }).cmds = [c] := by
  unfold command_asserted app_assert_status
  by_cases h : env.status c = 0
  · simp only [h, if_true]
  · simp only [h, if_false]

theorem write_request_outcome (env : Env) (s : App) (connection characteristic : Nat)
    (value : List Nat) :
    (sl_bt_on_event env s
        (.gatt_server_user_write_request connection characteristic value)).cmds =
      [.gatt_server_send_user_write_response connection characteristic 0] ∧
    (sl_bt_on_event env s
        (.gatt_server_user_write_request connection characteristic value)).next =
      (if env.status (.gatt_server_send_user_write_response connection characteristic 0) = 0
       then .ok { s with address := value_data0 env value % 256 }
       else .error .assert_failed) := by
  simp only [sl_bt_on_event]
  exact ⟨command_asserted_single _ _ _, command_asserted_next _ _ _⟩

theorem other_event_frame (env : Env) (s s' : App) (evt : Event) (hevt : evt ≠ .system_boot)
    (h : (sl_bt_on_event env s evt).next = .ok s') :
    s'.advertising_set_handle = s.advertising_set_handle ∧
    s'.legacyMain = s.legacyMain ∧ s'.legacyScan = s.legacyScan := by
  cases evt with
  | system_boot => exact absurd rfl hevt
  | connection_opened c =>
      simp only [sl_bt_on_event] at h; cases h; exact ⟨rfl, rfl, rfl⟩
  | connection_closed =>
      simp only [sl_bt_on_event] at h; cases h; exact ⟨rfl, rfl, rfl⟩
  | pawr_sync_transfer_received =>
      simp only [sl_bt_on_event] at h
      have h' := command_asserted_next_ok _ _ _ _ h
      cases h'; exact ⟨rfl, rfl, rfl⟩
  | pawr_sync_subevent_report a b c =>
      simp only [sl_bt_on_event] at h; cases h; exact ⟨rfl, rfl, rfl⟩
  | sync_closed =>
      simp only [sl_bt_on_event, start_advertising] at h
      have h' := command_asserted_next_ok _ _ _ _ h
      cases h'; exact ⟨rfl, rfl, rfl⟩
  | gatt_server_user_write_request a b v =>
      simp only [sl_bt_on_event] at h
      have h' := command_asserted_next_ok _ _ _ _ h
      cases h'; exact ⟨rfl, rfl, rfl⟩
  | unhandled =>
      simp only [sl_bt_on_event] at h; cases h; exact ⟨rfl, rfl, rfl⟩

theorem run_cons_ok (s s' : App) (env : Env) (evt : Event) (rest : List (Env × Event))
    (h : (run s ((env, evt) :: rest)).next = .ok s') :
    ∃ s1, (sl_bt_on_event env s evt).next = .ok s1 ∧ (run s1 rest).next = .ok s' := by
  simp only [run] at h
  cases hn : (sl_bt_on_event env s evt).next with
  | error f => rw [hn] at h; cases h
  | ok s1 => rw [hn] at h; exact ⟨s1, rfl, h⟩

theorem run_frame (evts : List (Env × Event)) :
    ∀ s s' : App, (∀ e ∈ evts, e.2 ≠ .system_boot) → (run s evts).next = .ok s' →
      s'.advertising_set_handle = s.advertising_set_handle ∧
      s'.legacyMain = s.legacyMain ∧ s'.legacyScan = s.legacyScan := by
  induction evts with
  | nil =>
      intro s s' _ h
      simp only [run] at h
      cases h
      exact ⟨rfl, rfl, rfl⟩
  | cons e rest ih =>
      intro s s' hnb h
      obtain ⟨env, evt⟩ := e
      obtain ⟨s1, h1, h2⟩ := run_cons_ok s s' env evt rest h
      obtain ⟨a1, a2, a3⟩ := other_event_frame env s s1 evt
        (hnb (env, evt) (List.mem_cons_self _ _)) h1
      obtain ⟨b1, b2, b3⟩ := ih s1 s' (fun e he => hnb e (List.mem_cons_of_mem _ he)) h2
      exact ⟨b1.trans a1, b2.trans a2, b3.trans a3⟩

theorem start_advertising_next (env : Env) (s : App) :
    (start_advertising env s).next =
      if env.status (.legacy_advertiser_start s.advertising_set_handle .connectable) = 0
      then .ok s else .error .assert_failed := by
  unfold start_advertising
  rw [command_asserted_next]

/-- C13.  For every event sequence that starts with a boot event handled
successfully and goes on with events none of which is a boot event, handling
a subsequent sync-closed event issues exactly one command, a start of
connectable advertising on the advertising-set handle allocated at boot; it
returns normally with the variables unchanged when that command succeeds
(and halts otherwise), and the length and payload of both advertisement
buffers equal their values right after boot. -/
theorem C13_sync_closed_restarts_advertising (env0 : Env) (s0 s1 : App)
    (evts : List (Env × Event)) (env : Env) (s : App)
    (hboot : (sl_bt_on_event env0 s0 .system_boot).next = .ok s1)
    (hnb : ∀ e ∈ evts, e.2 ≠ .system_boot)
    (hrun : (run s1 evts).next = .ok s) :
    (sl_bt_on_event env s .sync_closed).cmds =
      [.legacy_advertiser_start env0.create_set_handle .connectable] ∧
    (sl_bt_on_event env s .sync_closed).next =
      (if env.status (.legacy_advertiser_start env0.create_set_handle .connectable) = 0
       then .ok s else .error .assert_failed) ∧
    s.legacyMain.length = s1.legacyMain.length ∧
    s.legacyMain.payload = s1.legacyMain.payload ∧
    s.legacyScan.length = s1.legacyScan.length ∧
    s.legacyScan.payload = s1.legacyScan.payload := by
  obtain ⟨m, sc, hs1⟩ := boot_next_ok env0 s0 s1 hboot
  obtain ⟨f1, f2, f3⟩ := run_frame evts s1 s hnb hrun
  have hh : s.advertising_set_handle = env0.create_set_handle := by
    rw [f1, hs1]
  refine ⟨?_, ?_, by rw [f2], by rw [f2], by rw [f3], by rw [f3]⟩
  · simp only [sl_bt_on_event, start_advertising]
    rw [command_asserted_single, hh]
  · simp only [sl_bt_on_event]
    rw [start_advertising_next, hh]

/-- Witness of `C13_sync_closed_restarts_advertising`: boot with the name
`AB`, then a connection is opened, a write request with an empty value is
acknowledged, the sync transfer arrives and one subevent is reported before
the sync closes. -/
theorem C13_sync_closed_restarts_advertising_witness :
    (sl_bt_on_event (sample_env []) sample_synced .sync_closed).cmds =
      [.legacy_advertiser_start (sample_env [0x41, 0x42]).create_set_handle .connectable] ∧
    (sl_bt_on_event (sample_env []) sample_synced .sync_closed).next =
      (if (sample_env []).status
          (.legacy_advertiser_start (sample_env [0x41, 0x42]).create_set_handle .connectable) = 0
       then .ok sample_synced else .error .assert_failed) ∧
    sample_synced.legacyMain.length = sample_booted.legacyMain.length ∧
    sample_synced.legacyMain.payload = sample_booted.legacyMain.payload ∧
    sample_synced.legacyScan.length = sample_booted.legacyScan.length ∧
    sample_synced.legacyScan.payload = sample_booted.legacyScan.payload :=
  C13_sync_closed_restarts_advertising (sample_env [0x41, 0x42]) app_initial sample_booted
    sample_events (sample_env []) sample_synced rfl (by decide) rfl

theorem event_conn_frame (env : Env) (s s' : App) (evt : Event)
    (hevt : evt.opens_connection = false)
    (h : (sl_bt_on_event env s evt).next = .ok s') : s'.conn = s.conn := by
  cases evt with
  | system_boot =>
      obtain ⟨m, sc, rfl⟩ := boot_next_ok env s s' h
      rfl
  | connection_opened c => cases hevt
  | connection_closed => simp only [sl_bt_on_event] at h; cases h; rfl
  | pawr_sync_transfer_received =>
      simp only [sl_bt_on_event] at h
      have h' := command_asserted_next_ok _ _ _ _ h
      cases h'; rfl
  | pawr_sync_subevent_report a b c => simp only [sl_bt_on_event] at h; cases h; rfl
  | sync_closed =>
      simp only [sl_bt_on_event, start_advertising] at h
      have h' := command_asserted_next_ok _ _ _ _ h
      cases h'; rfl
  | gatt_server_user_write_request a b v =>
      simp only [sl_bt_on_event] at h
      have h' := command_asserted_next_ok _ _ _ _ h
      cases h'; rfl
  | unhandled => simp only [sl_bt_on_event] at h; cases h; rfl

theorem event_address_frame (env : Env) (s s' : App) (evt : Event)
    (hevt : evt.writes_attribute = false)
    (h : (sl_bt_on_event env s evt).next = .ok s') : s'.address = s.address := by
  cases evt with
  | system_boot =>
      obtain ⟨m, sc, rfl⟩ := boot_next_ok env s s' h
      rfl
  | connection_opened c => simp only [sl_bt_on_event] at h; cases h; rfl
  | connection_closed => simp only [sl_bt_on_event] at h; cases h; rfl
  | pawr_sync_transfer_received =>
      simp only [sl_bt_on_event] at h
      have h' := command_asserted_next_ok _ _ _ _ h
      cases h'; rfl
  | pawr_sync_subevent_report a b c => simp only [sl_bt_on_event] at h; cases h; rfl
  | sync_closed =>
      simp only [sl_bt_on_event, start_advertising] at h
      have h' := command_asserted_next_ok _ _ _ _ h
      cases h'; rfl
  | gatt_server_user_write_request a b v => cases hevt
  | unhandled => simp only [sl_bt_on_event] at h; cases h; rfl

theorem run_conn_frame (evts : List (Env × Event)) :
    ∀ s s' : App, (∀ e ∈ evts, e.2.opens_connection = false) →
      (run s evts).next = .ok s' → s'.conn = s.conn := by
  induction evts with
  | nil =>
      intro s s' _ h
      simp only [run] at h
      cases h
      rfl
  | cons e rest ih =>
      intro s s' hno h
      obtain ⟨env, evt⟩ := e
      obtain ⟨s1, h1, h2⟩ := run_cons_ok s s' env evt rest h
      rw [ih s1 s' (fun e he => hno e (List.mem_cons_of_mem _ he)) h2]
      exact event_conn_frame env s s1 evt (hno (env, evt) (List.mem_cons_self _ _)) h1

theorem run_address_frame (evts : List (Env × Event)) :
    ∀ s s' : App, (∀ e ∈ evts, e.2.writes_attribute = false) →
      (run s evts).next = .ok s' → s'.address = s.address := by
  induction evts with
  | nil =>
      intro s s' _ h
      simp only [run] at h
      cases h
      rfl
  | cons e rest ih =>
      intro s s' hno h
      obtain ⟨env, evt⟩ := e
      obtain ⟨s1, h1, h2⟩ := run_cons_ok s s' env evt rest h
      rw [ih s1 s' (fun e he => hno e (List.mem_cons_of_mem _ he)) h2]
      exact event_address_frame env s s1 evt (hno (env, evt) (List.mem_cons_self _ _)) h1

/-! ## The remaining branches -/

/-- C14.  For every state, handling a sync-transfer-received event issues
exactly one command, a close-connection on the stored connection handle, and
returns normally with every variable unchanged when that command succeeds
(it halts otherwise).  The stored handle is that of the most recent
connection-opened event: after a connection-opened event with handle `h`
followed by events none of which is a connection-opened event, the stored
connection handle is `h`. -/
theorem C14_sync_transfer_closes_connection (env : Env) (s : App) :
    (sl_bt_on_event env s .pawr_sync_transfer_received).cmds = [.connection_close s.conn] ∧
    (sl_bt_on_event env s .pawr_sync_transfer_received).next =
      (if env.status (.connection_close s.conn) = 0 then .ok s else .error .assert_failed) ∧
    ∀ (s0 : App) (env1 : Env) (h : Nat) (evts : List (Env × Event)),
      (∀ e ∈ evts, e.2.opens_connection = false) →
      (run s0 ((env1, .connection_opened h) :: evts)).next = .ok s → s.conn = h := by
  refine ⟨?_, ?_, ?_⟩
  · simp only [sl_bt_on_event]
    rw [command_asserted_single]
  · simp only [sl_bt_on_event]
    rw [command_asserted_next]
  · intro s0 env1 h evts hno hrun
    obtain ⟨s1, h1, h2⟩ := run_cons_ok s0 s env1 (.connection_opened h) evts hrun
    simp only [sl_bt_on_event] at h1
    cases h1
    exact run_conn_frame evts _ s hno h2

/-- C15.  For every state and every handle `h`, handling connection-opened
with `h` issues no stack command and returns normally; the stored connection
handle becomes `h`, and the advertising-set handle, the response-slot
address and both advertisement buffers are unchanged. -/
theorem C15_connection_opened_effect (env : Env) (s : App) (h : Nat) :
    (sl_bt_on_event env s (.connection_opened h)).cmds = [] ∧
    ∃ s', (sl_bt_on_event env s (.connection_opened h)).next = .ok s' ∧
      s'.conn = h ∧
      s'.advertising_set_handle = s.advertising_set_handle ∧
      s'.address = s.address ∧
      s'.legacyMain = s.legacyMain ∧ s'.legacyScan = s.legacyScan :=
  ⟨rfl, _, rfl, rfl, rfl, rfl, rfl, rfl⟩

/-- C16.  For every attribute-write-request event carrying at least one
value byte (first byte `b`), on the response-slot characteristic or any
other, the handler issues exactly one write acknowledgement with status 0
for the same connection and characteristic and, when that succeeds, returns
normally with `b` stored as the response-slot address and nothing else
changed; after any further events none of which is a write request, the
response to a subevent report uses `b` as its response slot. -/
theorem C16_write_request_sets_address (env : Env) (s : App)
    (connection characteristic b : Nat) (rest : List Nat) (hb : b < 256) :
    (sl_bt_on_event env s
        (.gatt_server_user_write_request connection characteristic (b :: rest))).cmds =
      [.gatt_server_send_user_write_response connection characteristic 0] ∧
    (sl_bt_on_event env s
        (.gatt_server_user_write_request connection characteristic (b :: rest))).next =
      (if env.status (.gatt_server_send_user_write_response connection characteristic 0) = 0
       then .ok { s with address := b } else .error .assert_failed) ∧
    ∀ (evts : List (Env × Event)) (s1 s2 : App) (env2 : Env) (S C K : Nat),
      (sl_bt_on_event env s
        (.gatt_server_user_write_request connection characteristic (b :: rest))).next
        = .ok s1 →
      (∀ e ∈ evts, e.2.writes_attribute = false) →
      (run s1 evts).next = .ok s2 →
      (sl_bt_on_event env2 s2 (.pawr_sync_subevent_report S C K)).cmds =
        [.pawr_sync_set_response_data S C K K b 4 (bytes_of_u32 (env2.tick_count % 2 ^ 32))] := by
  have hb' : b % 256 = b := Nat.mod_eq_of_lt hb
  have hnext : (sl_bt_on_event env s
        (.gatt_server_user_write_request connection characteristic (b :: rest))).next =
      (if env.status (.gatt_server_send_user_write_response connection characteristic 0) = 0
       then .ok { s with address := b } else .error .assert_failed) := by
    simp only [sl_bt_on_event, value_data0]
    rw [command_asserted_next, hb']
  refine ⟨?_, hnext, ?_⟩
  · simp only [sl_bt_on_event]
    rw [command_asserted_single]
  · intro evts s1 s2 env2 S C K h1 hno h2
    rw [hnext] at h1
    have hs1 : s1.address = b := by
      by_cases hst :
          env.status (.gatt_server_send_user_write_response connection characteristic 0) = 0
      · rw [if_pos hst] at h1; cases h1; rfl
      · rw [if_neg hst] at h1; cases h1
    have hs2 : s2.address = b := (run_address_frame evts s1 s2 hno h2).trans hs1
    simp only [sl_bt_on_event, hs2]

/-- Witness of `C16_write_request_sets_address`: the byte 5 written over
connection 3 to characteristic 27. -/
theorem C16_write_request_sets_address_witness :
    (sl_bt_on_event (sample_env []) app_initial
        (.gatt_server_user_write_request 3 27 (5 :: []))).cmds =
      [.gatt_server_send_user_write_response 3 27 0] ∧
    (sl_bt_on_event (sample_env []) app_initial
        (.gatt_server_user_write_request 3 27 (5 :: []))).next =
      (if (sample_env []).status (.gatt_server_send_user_write_response 3 27 0) = 0
       then .ok { app_initial with address := 5 } else .error .assert_failed) ∧
    ∀ (evts : List (Env × Event)) (s1 s2 : App) (env2 : Env) (S C K : Nat),
      (sl_bt_on_event (sample_env []) app_initial
        (.gatt_server_user_write_request 3 27 (5 :: []))).next = .ok s1 →
      (∀ e ∈ evts, e.2.writes_attribute = false) →
      (run s1 evts).next = .ok s2 →
      (sl_bt_on_event env2 s2 (.pawr_sync_subevent_report S C K)).cmds =
        [.pawr_sync_set_response_data S C K K 5 4 (bytes_of_u32 (env2.tick_count % 2 ^ 32))] :=
  C16_write_request_sets_address (sample_env []) app_initial 3 27 5 [] (by decide)

theorem run_single (s : App) (env : Env) (evt : Event) :
    (run s [(env, evt)]).cmds = (sl_bt_on_event env s evt).cmds := by
  simp only [run]
  cases (sl_bt_on_event env s evt).next <;> simp

/-- C17.  Handling a connection-closed event issues no stack command and
returns normally with every variable unchanged; the connection handle is not
reset, so after connection-opened with `h` and then connection-closed the
stored handle is still `h` and a sync-transfer-received event issues
close-connection with `h`. -/
theorem C17_connection_closed_keeps_handle (env env1 env2 env3 : Env) (s : App) (h : Nat) :
    (sl_bt_on_event env s .connection_closed).cmds = [] ∧
    (sl_bt_on_event env s .connection_closed).next = .ok s ∧
    (run s [(env1, .connection_opened h), (env2, .connection_closed)]).cmds = [] ∧
    (run s [(env1, .connection_opened h), (env2, .connection_closed)]).next =
      .ok { s with conn := h } ∧
    (sl_bt_on_event env3 { s with conn := h } .pawr_sync_transfer_received).cmds =
      [.connection_close h] ∧
    (run s [(env1, .connection_opened h), (env2, .connection_closed),
        (env3, .pawr_sync_transfer_received)]).cmds = [.connection_close h] := by
  refine ⟨rfl, rfl, rfl, rfl, ?_, ?_⟩
  · simp only [sl_bt_on_event]
    rw [command_asserted_single]
  · show (run { s with conn := h } [(env3, .pawr_sync_transfer_received)]).cmds = _
    rw [run_single]
    simp only [sl_bt_on_event]
    rw [command_asserted_single]

theorem run_cons_of_ok (s s1 : App) (env : Env) (evt : Event) (rest : List (Env × Event))
    (h : (sl_bt_on_event env s evt).next = .ok s1) :
    run s ((env, evt) :: rest) =
      { cmds := (sl_bt_on_event env s evt).cmds ++ (run s1 rest).cmds,
        next := (run s1 rest).next } := by
  simp only [run, h]

theorem run_append (pre post : List (Env × Event)) :
    ∀ s s' : App, (run s pre).next = .ok s' →
      (run s (pre ++ post)).cmds = (run s pre).cmds ++ (run s' post).cmds ∧
      (run s (pre ++ post)).next = (run s' post).next := by
  induction pre with
  | nil =>
      intro s s' h
      simp only [run] at h
      cases h
      exact ⟨rfl, rfl⟩
  | cons e rest ih =>
      intro s s' h
      obtain ⟨env, evt⟩ := e
      obtain ⟨s1, h1, h2⟩ := run_cons_ok s s' env evt rest h
      obtain ⟨i1, i2⟩ := ih s1 s' h2
      rw [List.cons_append, run_cons_of_ok s s1 env evt (rest ++ post) h1,
        run_cons_of_ok s s1 env evt rest h1]
      exact ⟨by simp only [i1, List.append_assoc], i2⟩

theorem silent_event (env : Env) (s : App) (evt : Event) (h : evt.silent = true) :
    (sl_bt_on_event env s evt).cmds = [] ∧ ∃ s', (sl_bt_on_event env s evt).next = .ok s' := by
  cases evt with
  | connection_opened c => exact ⟨rfl, _, rfl⟩
  | connection_closed => exact ⟨rfl, _, rfl⟩
  | unhandled => exact ⟨rfl, _, rfl⟩
  | system_boot => cases h
  | pawr_sync_transfer_received => cases h
  | pawr_sync_subevent_report a b c => cases h
  | sync_closed => cases h
  | gatt_server_user_write_request a b v => cases h

theorem run_silent (evts : List (Env × Event)) :
    ∀ s : App, (∀ e ∈ evts, e.2.silent = true) →
      (run s evts).cmds = [] ∧ ∃ s', (run s evts).next = .ok s' := by
  induction evts with
  | nil => intro s _; exact ⟨rfl, s, rfl⟩
  | cons e rest ih =>
      intro s hs
      obtain ⟨env, evt⟩ := e
      obtain ⟨hc, s1, h1⟩ := silent_event env s evt (hs (env, evt) (List.mem_cons_self _ _))
      obtain ⟨ic, s', i1⟩ := ih s1 (fun e he => hs e (List.mem_cons_of_mem _ he))
      rw [run_cons_of_ok s s1 env evt rest h1]
      exact ⟨by simp only [hc, ic, List.append_nil], s', i1⟩

theorem boot_first_command (env : Env) (s : App) (post : List (Env × Event)) :
    (run s ((env, .system_boot) :: post)).cmds.head? =
      some (.past_receiver_set_default_sync_receive_parameters .mode_synchronize 0 1000
        .report_all) := by
  have hc : ∃ tl, (sl_bt_on_event env s .system_boot).cmds =
      .past_receiver_set_default_sync_receive_parameters .mode_synchronize 0 1000
        .report_all :: tl := by
    simp only [sl_bt_on_event]
    by_cases h1 : env.status (.past_receiver_set_default_sync_receive_parameters
        .mode_synchronize 0 1000 .report_all) = 0
    · rw [command_asserted_ok _ _ _ h1]
      exact ⟨_, rfl⟩
    · rw [command_asserted_cmds_fail _ _ _ h1]
      exact ⟨_, rfl⟩
  obtain ⟨tl, htl⟩ := hc
  simp only [run]
  cases (sl_bt_on_event env s .system_boot).next <;> simp [htl]

/-- C18 (counterexample).  From the initial state, in the event sequence
sync-closed then boot, handling the sync-closed event, which precedes the
first boot event, issues a start-advertising command on the handle `0xff`. -/
theorem C18_sync_closed_before_boot_issues_command :
    (sl_bt_on_event (sample_env []) app_initial .sync_closed).cmds =
      [.legacy_advertiser_start 0xff .connectable] ∧
    (run app_initial [(sample_env [], .sync_closed), (sample_env [], .system_boot)]).cmds.head? =
      some (.legacy_advertiser_start 0xff .connectable) :=
  ⟨rfl, rfl⟩

/-- C18 (amended).  For every sequence of events fed to `sl_bt_on_event` from
the initial state in which every event preceding the first boot event is a
connection-opened, connection-closed or unrecognised event, no stack command
is issued while handling the events that precede the boot event: their run
issues no command and returns normally, the commands of the whole sequence
are those issued from the boot event on, and the first of them is the
configuration of the sync-receive parameters. -/
theorem C18_no_command_before_boot (pre post : List (Env × Event)) (env : Env)
    (hpre : ∀ e ∈ pre, e.2.silent = true) :
    (run app_initial pre).cmds = [] ∧
    ∃ s', (run app_initial pre).next = .ok s' ∧
      (run app_initial (pre ++ (env, .system_boot) :: post)).cmds =
        (run s' ((env, .system_boot) :: post)).cmds ∧
      (run app_initial (pre ++ (env, .system_boot) :: post)).cmds.head? =
        some (.past_receiver_set_default_sync_receive_parameters .mode_synchronize 0 1000
          .report_all) := by
  obtain ⟨hc, s', hn⟩ := run_silent pre app_initial hpre
  obtain ⟨a1, _⟩ := run_append pre ((env, .system_boot) :: post) app_initial s' hn
  rw [hc, List.nil_append] at a1
  exact ⟨hc, s', hn, a1, by rw [a1]; exact boot_first_command env s' post⟩

/-- Witness of `C18_no_command_before_boot`: a connection is opened and
closed before the boot event. -/
theorem C18_no_command_before_boot_witness :
    (run app_initial [(sample_env [], .connection_opened 3),
        (sample_env [], .connection_closed)]).cmds = [] ∧
    ∃ s', (run app_initial [(sample_env [], .connection_opened 3),
        (sample_env [], .connection_closed)]).next = .ok s' ∧
      (run app_initial ([(sample_env [], .connection_opened 3),
          (sample_env [], .connection_closed)] ++
          (sample_env [0x41], .system_boot) :: [(sample_env [], .sync_closed)])).cmds =
        (run s' ((sample_env [0x41], .system_boot) :: [(sample_env [], .sync_closed)])).cmds ∧
      (run app_initial ([(sample_env [], .connection_opened 3),
          (sample_env [], .connection_closed)] ++
          (sample_env [0x41], .system_boot) :: [(sample_env [], .sync_closed)])).cmds.head? =
        some (.past_receiver_set_default_sync_receive_parameters .mode_synchronize 0 1000
          .report_all) :=
  C18_no_command_before_boot
    [(sample_env [], .connection_opened 3), (sample_env [], .connection_closed)]
    [(sample_env [], .sync_closed)] (sample_env [0x41]) (by decide)

/-! ## The read ceiling and the write request -/

theorem adv_add_name_max_length_wrap (w n k : Nat) (hn : n + 2 = 31 + k) (hk : 0 < k)
    (hw : k ≤ 2 ^ w) : adv_add_name_max_length w n = 2 ^ w - k := by
  unfold adv_add_name_max_length PAYLOAD_SIZE
  have hc : ((2 : Int) ^ w) = (((2 ^ w : Nat)) : Int) := by push_cast; rfl
  rw [hc]
  generalize 2 ^ w = m at hw ⊢
  have e : ((31 : Nat) : Int) - (n : Int) - 2 = ((m - k : Nat) : Int) + (-1) * (m : Int) := by
    omega
  rw [e, Int.add_mul_emod_self, Int.emod_eq_of_lt (by omega) (by omega)]
  simp

/-- C19.  With `size_t` of width `w` (at least 6 bits, so that the wrapped
values exceed 31), the ceiling `sizeof(adv->payload) - adv->length - 2` of
`adv_add_name` is `29 - n` for a buffer length `n <= 29`, so that
`n + 2 + ceiling = 31`; for `n = 30` and `n = 31` the subtraction wraps to
`2 ^ w - 1` and `2 ^ w - 2`, both larger than 31.  There is no guard: at
those lengths a successful read with that ceiling is followed by a write
outside the payload. -/
theorem C19_read_ceiling_wraps (w : Nat) (hw : 6 ≤ w) :
    (∀ n, n ≤ 29 → adv_add_name_max_length w n = 29 - n ∧
      n + 2 + adv_add_name_max_length w n = 31) ∧
    adv_add_name_max_length w 30 = 2 ^ w - 1 ∧
    adv_add_name_max_length w 31 = 2 ^ w - 2 ∧
    31 < adv_add_name_max_length w 30 ∧
    31 < adv_add_name_max_length w 31 ∧
    ∀ (env : Env) (adv : legacyAdv_s) (name : List Nat), env.size_bits = w →
      adv.length = 30 ∨ adv.length = 31 →
      env.read_attribute_value env.gattdb_device_name 0
        (adv_add_name_max_length w adv.length) = (0, name) →
      adv_add_name env adv = .error .out_of_bounds := by
  have h64 : 2 ^ 6 ≤ 2 ^ w := Nat.pow_le_pow_right (by decide) hw
  have h64' : 64 ≤ 2 ^ w := h64
  have e30 := adv_add_name_max_length_wrap w 30 1 rfl (by decide) (by omega)
  have e31 := adv_add_name_max_length_wrap w 31 2 rfl (by decide) (by omega)
  refine ⟨fun n hn => ?_, e30, e31, by omega, by omega, ?_⟩
  · have e := adv_add_name_max_length_eq w n (by omega) hn
    omega
  · intro env adv name hsz hlen hr
    subst hsz
    exact adv_add_name_oob env adv name hr (by omega)

/-- Witness of `C19_read_ceiling_wraps`: a 32-bit `size_t`. -/
theorem C19_read_ceiling_wraps_witness :
    (∀ n, n ≤ 29 → adv_add_name_max_length 32 n = 29 - n ∧
      n + 2 + adv_add_name_max_length 32 n = 31) ∧
    adv_add_name_max_length 32 30 = 2 ^ 32 - 1 ∧
    adv_add_name_max_length 32 31 = 2 ^ 32 - 2 ∧
    31 < adv_add_name_max_length 32 30 ∧
    31 < adv_add_name_max_length 32 31 ∧
    ∀ (env : Env) (adv : legacyAdv_s) (name : List Nat), env.size_bits = 32 →
      adv.length = 30 ∨ adv.length = 31 →
      env.read_attribute_value env.gattdb_device_name 0
        (adv_add_name_max_length 32 adv.length) = (0, name) →
      adv_add_name env adv = .error .out_of_bounds :=
  C19_read_ceiling_wraps 32 (by decide)

/-- C20.  The write-request branch does not look at the characteristic: for
every state, every value (empty or not) and any two write-request events
that differ only in their characteristic, handling either event, when its
acknowledgement succeeds, returns normally with the same stored response-slot
address, the byte read at `value.data[0]`; when the value has a first byte
`b` that address is `b`, whatever the characteristic. -/
theorem C20_write_request_ignores_characteristic (env : Env) (s : App)
    (connection ch1 ch2 b : Nat) (rest : List Nat) (hb : b < 256)
    (h1 : env.status (.gatt_server_send_user_write_response connection ch1 0) = 0)
    (h2 : env.status (.gatt_server_send_user_write_response connection ch2 0) = 0) :
    (sl_bt_on_event env s (.gatt_server_user_write_request connection ch1 (b :: rest))).next =
      .ok { s with address := b } ∧
    (sl_bt_on_event env s (.gatt_server_user_write_request connection ch2 (b :: rest))).next =
      .ok { s with address := b } ∧
    (∀ (value : List Nat) (s1 s2 : App),
      (sl_bt_on_event env s (.gatt_server_user_write_request connection ch1 value)).next
        = .ok s1 →
      (sl_bt_on_event env s (.gatt_server_user_write_request connection ch2 value)).next
        = .ok s2 →
      s1.address = s2.address) ∧
    ∀ value : List Nat,
      (sl_bt_on_event env s (.gatt_server_user_write_request connection ch1 value)).next =
        .ok { s with address := value_data0 env value % 256 } ∧
      (sl_bt_on_event env s (.gatt_server_user_write_request connection ch2 value)).next =
        .ok { s with address := value_data0 env value % 256 } := by
  have hb' : b % 256 = b := Nat.mod_eq_of_lt hb
  have hv : ∀ value : List Nat,
      (sl_bt_on_event env s (.gatt_server_user_write_request connection ch1 value)).next =
        .ok { s with address := value_data0 env value % 256 } ∧
      (sl_bt_on_event env s (.gatt_server_user_write_request connection ch2 value)).next =
        .ok { s with address := value_data0 env value % 256 } := by
    intro value
    simp only [sl_bt_on_event]
    rw [command_asserted_next, if_pos h1, command_asserted_next, if_pos h2]
    exact ⟨rfl, rfl⟩
  refine ⟨?_, ?_, ?_, hv⟩
  · rw [(hv (b :: rest)).1]
    simp only [value_data0, hb']
  · rw [(hv (b :: rest)).2]
    simp only [value_data0, hb']
  · intro value s1 s2 e1 e2
    rw [(hv value).1] at e1
    rw [(hv value).2] at e2
    cases e1; cases e2; rfl

/-- Witness of `C20_write_request_ignores_characteristic`: the byte 5
written to characteristic 27 and to characteristic 99. -/
theorem C20_write_request_ignores_characteristic_witness :
    (sl_bt_on_event (sample_env []) app_initial
        (.gatt_server_user_write_request 3 27 (5 :: []))).next =
      .ok { app_initial with address := 5 } ∧
    (sl_bt_on_event (sample_env []) app_initial
        (.gatt_server_user_write_request 3 99 (5 :: []))).next =
      .ok { app_initial with address := 5 } ∧
    (∀ (value : List Nat) (s1 s2 : App),
      (sl_bt_on_event (sample_env []) app_initial
        (.gatt_server_user_write_request 3 27 value)).next = .ok s1 →
      (sl_bt_on_event (sample_env []) app_initial
        (.gatt_server_user_write_request 3 99 value)).next = .ok s2 →
      s1.address = s2.address) ∧
    ∀ value : List Nat,
      (sl_bt_on_event (sample_env []) app_initial
          (.gatt_server_user_write_request 3 27 value)).next =
        .ok { app_initial with address := value_data0 (sample_env []) value % 256 } ∧
      (sl_bt_on_event (sample_env []) app_initial
          (.gatt_server_user_write_request 3 99 value)).next =
        .ok { app_initial with address := value_data0 (sample_env []) value % 256 } :=
  C20_write_request_ignores_characteristic (sample_env []) app_initial 3 27 99 5 []
    (by decide) rfl rfl

end WWSJ
